import Mathlib

/-!
Shallow embedding of the scheduled X (Twitter) posting agent
(`src/post_x.js` of euro0707/x-auto-post) and verification of the
frozen claims about it.

Modelling conventions:
* Spreadsheet cell values are modelled by the string the code derives
  from them (`String(raw || '')`), or by small inductives where the code
  branches on the runtime type (`DayCell`, `TimeCell`).
* Timestamps (`Date.getTime()`) are integers in milliseconds; the local
  timezone is identified with UTC and a day is a fixed 86400000 ms.
* Host-environment primitives that the code consumes (the posting API,
  media resolution/upload, `extractUrlFromCell_`'s rich-text reads,
  `Number(string)` and free-form `new Date(string)` parsing, script
  properties, the script lock) are supplied by an `Env` record.
* Stateful functions return an `Out` record: an `Except` result (thrown
  errors carry the message string), the updated sheet, the running count
  of posting-API calls, and the emitted trace of observable events.
-/

/-- JS `\s` (whitespace class used by `trim`, the URL regular expression
and `parseInt`). -/
def jsIsSpace (c : Char) : Bool :=
  c.toNat = 0x20 || c.toNat = 0x09 || c.toNat = 0x0a || c.toNat = 0x0d ||
  c.toNat = 0x0b || c.toNat = 0x0c || c.toNat = 0xa0 || c.toNat = 0x1680 ||
  (0x2000 ≤ c.toNat && c.toNat ≤ 0x200a) || c.toNat = 0x2028 || c.toNat = 0x2029 ||
  c.toNat = 0x202f || c.toNat = 0x205f || c.toNat = 0x3000 || c.toNat = 0xfeff

/-- JS `String.prototype.trim`. -/
def jsTrim (s : String) : String :=
  ⟨((s.data.dropWhile jsIsSpace).reverse.dropWhile jsIsSpace).reverse⟩

/-- JS `String.prototype.toLowerCase` (ASCII fragment, all the code
compares against are ASCII status literals). -/
def jsToLower (s : String) : String :=
  ⟨s.data.map Char.toLower⟩

/-- Numeric value of a run of decimal digit characters. -/
def digitsVal (ds : List Char) : Int :=
  ds.foldl (fun a c => a * 10 + (Int.ofNat (c.toNat - 48))) 0

/-- JS `parseInt(s, 10)`: skip leading whitespace, optional sign, then the
maximal run of leading decimal digits; `none` models `NaN` (no digits). -/
def jsParseIntDec (s : String) : Option Int :=
  match s.data.dropWhile jsIsSpace with
  | '-' :: t =>
    (if (t.takeWhile Char.isDigit).isEmpty then none
     else some (-(digitsVal (t.takeWhile Char.isDigit))))
  | '+' :: t =>
    (if (t.takeWhile Char.isDigit).isEmpty then none
     else some (digitsVal (t.takeWhile Char.isDigit)))
  | t =>
    (if (t.takeWhile Char.isDigit).isEmpty then none
     else some (digitsVal (t.takeWhile Char.isDigit)))

/-- Whether a whole string is an integer numeral (optional sign followed by
nothing but at least one decimal digit), and its value.  This is the
spec-side reading of "the whole trimmed cell denotes an integer"; it is
compared against the code's `parseInt`-based acceptance. -/
def wholeIntLit (s : String) : Option Int :=
  match s.data with
  | '-' :: t =>
    (if !t.isEmpty && t.all Char.isDigit then some (-(digitsVal t)) else none)
  | '+' :: t =>
    (if !t.isEmpty && t.all Char.isDigit then some (digitsVal t) else none)
  | t =>
    (if !t.isEmpty && t.all Char.isDigit then some (digitsVal t) else none)

/-! ### CONFIG constants (from the frozen `CONFIG` object) -/

def dataStartRow : Nat := 2
def toleranceMs : Int := 5 * 60 * 1000
def msPerDay : Int := 86400000
/-- `new Date(1899, 11, 31)` local midnight: 25568 days before the epoch
under the local = UTC convention (1899-12-31 is one day before 1900-01-01,
which is 25567 days before 1970-01-01). -/
def serialBaseDate : Int := (-25568) * msPerDay
def characterLimitEnabled : Bool := true
def skipOnExceed : Bool := true
def urlWeight : Nat := 23

/-! ### CharacterCounter (`countTwitterCharacters_`) -/

/-- Case-insensitive match of a literal lowercase pattern against the front
of a char list, returning the rest. -/
def litMatch : List Char → List Char → Option (List Char)
  | [], cs => some cs
  | _ :: _, [] => none
  | p :: ps, c :: cs => if c.toLower = p then litMatch ps cs else none

/-- Try the URL regular expression `https?:\/\/[^\s]+` (flags `gi`) at the
front of the text with the `s` present, returning what follows the match. -/
def urlMatchHttps (cs : List Char) : Option (List Char) :=
  match litMatch ['h','t','t','p','s',':','/','/'] cs with
  | some rest =>
    if (rest.takeWhile (fun c => !jsIsSpace c)).isEmpty then none
    else some (rest.dropWhile (fun c => !jsIsSpace c))
  | none => none

/-- Same with the optional `s` absent. -/
def urlMatchHttp (cs : List Char) : Option (List Char) :=
  match litMatch ['h','t','t','p',':','/','/'] cs with
  | some rest =>
    if (rest.takeWhile (fun c => !jsIsSpace c)).isEmpty then none
    else some (rest.dropWhile (fun c => !jsIsSpace c))
  | none => none

/-- A URL match at the current position (greedy `s?`, with backtracking as
the regex engine performs it). -/
def urlMatchAt (cs : List Char) : Option (List Char) :=
  match urlMatchHttps cs with
  | some rest => some rest
  | none => urlMatchHttp cs

/-- One left-to-right scan: count the characters kept after deleting every
URL match, and the number of matches.  The fuel is the length of the text;
every match consumes at least one character so the fuel never runs out. -/
def countScanF : Nat → List Char → Nat × Nat
  | 0, _ => (0, 0)
  | _ + 1, [] => (0, 0)
  | fuel + 1, c :: rest =>
    match urlMatchAt (c :: rest) with
    | some rest' =>
      match countScanF fuel rest' with
      | (kept, urls) => (kept, urls + 1)
    | none =>
      match countScanF fuel rest with
      | (kept, urls) => (kept + 1, urls)

/-- `countTwitterCharacters_`: empty text counts 0; URL-like substrings are
replaced by a fixed weight of 23 each; the rest is counted by code point. -/
def countTwitterCharacters_ (text : String) : Nat :=
  if text = "" then 0
  else
    match countScanF text.data.length text.data with
    | (kept, urls) => kept + urls * urlWeight

/-! ### Cell values and schedule resolution -/

/-- The day cell (column E) as `getValues()` delivers it: blank, a `Date`
(carried as its timestamp), a number (a double, carried as a rational), or
a string. -/
inductive DayCell where
  | blank
  | date (t : Int)
  | num (q : Rat)
  | str (s : String)
deriving Repr, DecidableEq

/-- An hour/minute cell (columns F/G): blank, or anything else carried as
the string `String(raw)` the code immediately converts it to. -/
inductive TimeCell where
  | blank
  | val (s : String)
deriving Repr, DecidableEq

/-- One data row's cells, each in the form the code reads it. -/
structure RowCells where
  content : String
  day : DayCell
  hour : TimeCell
  minute : TimeCell
  postedUrl : String
  threadGroupId : String
  status : String
deriving Repr, DecidableEq

abbrev Sheet := List RowCells

/-- Outcome of one posting-API call (`postSingleTweet_`): the created tweet
id, or the thrown error message. -/
inductive PostOutcome where
  | ok (tweetId : String)
  | err (msg : String)
deriving Repr, DecidableEq

/-- Observable events of a run, in order of occurrence. -/
inductive Event where
  /-- A `setRowStatus_` call (writes the status cell, and the result cell
  too when failing with a message). -/
  | statusWrite (rowNumber : Nat) (status : String) (errorMessage : String)
  /-- A direct write of the posted-URL cell. -/
  | urlWrite (rowNumber : Nat) (url : String)
  /-- A posting-API call.  `rowTag` is trace bookkeeping: the row on whose
  behalf a main content publish is made; the best-effort note-link replies
  carry `none`. -/
  | apiPost (rowTag : Option Nat) (content : String) (replyTo : Option String)
      (mediaIds : List String) (outcome : PostOutcome)
  /-- `Utilities.sleep`. -/
  | sleep (ms : Nat)
  | lockAcquired
  | lockReleased
deriving Repr, DecidableEq

/-- The host environment consumed by the code: the clock, the lock, script
properties, cell metadata reads, media resolution, and the posting API. -/
structure Env where
  now : Int
  lockAcquired : Bool
  apiKey : Option String
  apiSecret : Option String
  accessToken : Option String
  accessTokenSecret : Option String
  xPlanType : Option String
  /-- Result of `extractUrlFromCell_` on a row's note cell. -/
  noteUrlOf : Nat → String
  /-- Number of image blobs `getImagesFromCell_` resolves for a row
  (before the cap at four). -/
  imagesOf : Nat → Nat
  /-- Outcome of uploading a row's j-th image: a media id, or `none` for a
  failure that is logged and skipped. -/
  uploadOutcome : Nat → Nat → Option String
  /-- Outcome of the n-th posting-API call of the run. -/
  postOutcome : Nat → PostOutcome
  /-- JS `Number(string)` when finite. -/
  numberParse : String → Option Rat
  /-- JS free-form `new Date(string).getTime()` when valid
  (implementation-defined in JS, hence an environment parameter). -/
  dateParse : String → Option Int

/-- `getXPlanConfig`: plan type (defaulting to `free`) and its character
limit from the presets. -/
def getXPlanConfig (env : Env) : String × Nat :=
  let planType :=
    match env.xPlanType with
    | none => "free"
    | some s => if s = "" then "free" else s
  let limit :=
    if planType = "basic" then 25000
    else if planType = "premium" then 25000
    else 140
  (planType, limit)

/-- Local midnight of a timestamp (`setHours(0,0,0,0)` with local = UTC). -/
def floorToDay (t : Int) : Int := t - t.emod msPerDay

/-- The `baseDate` inner closure of `findNextPublishableRow_`: normalize a
`Date` to midnight; treat a finite number as a day serial (`< 1` invalid,
`floor` days after the serial base); otherwise attempt free-form date
parsing and normalize to midnight. -/
def resolveBaseDate (env : Env) (day : DayCell) : Option Int :=
  match day with
  | .blank => none
  | .date t => some (floorToDay t)
  | .num q =>
    if q < 1 then none
    else some (serialBaseDate + q.floor * msPerDay)
  | .str s =>
    match env.numberParse s with
    | some q =>
      if q < 1 then none
      else some (serialBaseDate + q.floor * msPerDay)
    | none =>
      match env.dateParse s with
      | some t => some (floorToDay t)
      | none => none

/-- The `parseTimeCell` inner closure: blank is 0; otherwise
`parseInt(String(value).trim(), 10)`, rejected when `NaN` or out of
`[0, max]`. -/
def parseTimeCell (value : TimeCell) (max : Int) : Option Int :=
  match value with
  | .blank => some 0
  | .val s =>
    match jsParseIntDec (jsTrim s) with
    | none => none
    | some n => if n < 0 ∨ n > max then none else some n

/-- The `scheduledAt` computation of `findNextPublishableRow_`: blank day
gives no schedule; otherwise the resolved base midnight plus the parsed
hour and minute (`setHours(h, m, 0, 0)`). -/
def resolveScheduledAt (env : Env) (day : DayCell) (hour minute : TimeCell) :
    Option Int :=
  match day with
  | .blank => none
  | _ =>
    match resolveBaseDate env day with
    | none => none
    | some base =>
      match parseTimeCell hour 23, parseTimeCell minute 59 with
      | some h, some m => some (base + h * 3600000 + m * 60000)
      | _, _ => none

/-- The row record `findNextPublishableRow_` returns. -/
structure Target where
  rowNumber : Nat
  content : String
  noteUrl : Option String
  scheduledAt : Int
  threadGroupId : Option String
deriving Repr, DecidableEq

/-- Extraction of the returned record from a row (`noteUrl || null`,
`threadGroupId || null`). -/
def mkTarget (env : Env) (rowNumber : Nat) (cells : RowCells) (t : Int) :
    Target :=
  { rowNumber := rowNumber
    content := jsTrim cells.content
    noteUrl := if env.noteUrlOf rowNumber = "" then none else some (env.noteUrlOf rowNumber)
    scheduledAt := t
    threadGroupId :=
      if jsTrim cells.threadGroupId = "" then none else some (jsTrim cells.threadGroupId) }

/-- The scan loop of `findNextPublishableRow_`: skip empty content, skip
`posted`/`posting`, skip unresolvable schedules, skip schedules outside the
tolerance window, return the first remaining row. -/
def findNextFrom (env : Env) : Nat → List RowCells → Option Target
  | _, [] => none
  | n, cells :: rest =>
    let content := jsTrim cells.content
    let status := jsToLower (jsTrim cells.status)
    if content = "" then findNextFrom env (n + 1) rest
    else if status = "posted" ∨ status = "posting" then findNextFrom env (n + 1) rest
    else
      match resolveScheduledAt env cells.day cells.hour cells.minute with
      | none => findNextFrom env (n + 1) rest
      | some t =>
        if t > env.now + toleranceMs then findNextFrom env (n + 1) rest
        else if t < env.now - toleranceMs then findNextFrom env (n + 1) rest
        else some (mkTarget env n cells t)

/-- `findNextPublishableRow_`: scan from the data start row. -/
def findNextPublishableRow_ (env : Env) (sheet : Sheet) : Option Target :=
  findNextFrom env dataStartRow sheet

/-! ### Spec-side due-row selection (for the refinement claim C1) -/

/-- Eligibility as the spec states it: trimmed content non-empty, status
(case-insensitive, trimmed) neither `posted` nor `posting`, and the
resolved schedule defined and inside the closed window
`[now - tolerance, now + tolerance]`. -/
def eligibleSpec (env : Env) (cells : RowCells) : Bool :=
  !(jsTrim cells.content == "") &&
  !(jsToLower (jsTrim cells.status) == "posted") &&
  !(jsToLower (jsTrim cells.status) == "posting") &&
  (match resolveScheduledAt env cells.day cells.hour cells.minute with
   | some t => decide (env.now - toleranceMs ≤ t) && decide (t ≤ env.now + toleranceMs)
   | none => false)

/-- Spec-side selector: the first eligible row in store order, with its
extracted record. -/
def selectNextSpecFrom (env : Env) : Nat → List RowCells → Option Target
  | _, [] => none
  | n, cells :: rest =>
    if eligibleSpec env cells then
      match resolveScheduledAt env cells.day cells.hour cells.minute with
      | some t => some (mkTarget env n cells t)
      | none => none
    else selectNextSpecFrom env (n + 1) rest

def selectNextSpec (env : Env) (sheet : Sheet) : Option Target :=
  selectNextSpecFrom env dataStartRow sheet

/-! ### Stateful publishing machinery -/

/-- Result of a stateful step: the `Except` outcome (thrown errors carry
the message), the updated sheet, the running posting-API call count, and
the trace of events the step emitted. -/
structure Out (α : Type) where
  res : Except String α
  sheet : Sheet
  apiCount : Nat
  trace : List Event

/-- Replace the cells at a list index. -/
def updateAt : List RowCells → Nat → (RowCells → RowCells) → List RowCells
  | [], _, _ => []
  | c :: rest, 0, f => f c :: rest
  | c :: rest, n + 1, f => c :: updateAt rest n f

/-- Write one row's cells, addressing by sheet row number. -/
def updateRow (sheet : Sheet) (rowNumber : Nat) (f : RowCells → RowCells) :
    Sheet :=
  updateAt sheet (rowNumber - dataStartRow) f

/-- `setRowStatus_`: write the status cell; when failing with a message,
record the message in the posted-URL cell too. -/
def setRowStatus_ (sheet : Sheet) (rowNumber : Nat) (status errorMessage : String) :
    Sheet × List Event :=
  let s1 := updateRow sheet rowNumber (fun c => { c with status := status })
  let s2 :=
    if status = "failed" ∧ errorMessage ≠ "" then
      updateRow s1 rowNumber (fun c => { c with postedUrl := errorMessage })
    else s1
  (s2, [Event.statusWrite rowNumber status errorMessage])

/-- `String(error)` for a thrown `Error`. -/
def jsErrorString (msg : String) : String := "Error: " ++ msg

/-- The tweet URL built from a tweet id. -/
def tweetUrlOf (tweetId : String) : String :=
  "https://x.com/i/web/status/" ++ tweetId

/-- `postSingleTweet_`: one posting-API call; the network mechanics are the
environment's, the run only sees the outcome.  Returns the tweet id and
URL on success; the `rowTag` is the trace bookkeeping of `Event.apiPost`. -/
def postSingleTweet_ (env : Env) (apiCount : Nat) (rowTag : Option Nat)
    (content : String) (replyTo : Option String) (mediaIds : List String) :
    Except String (String × String) × Nat × List Event :=
  match env.postOutcome apiCount with
  | .ok id =>
    (.ok (id, tweetUrlOf id), apiCount + 1,
      [Event.apiPost rowTag content replyTo mediaIds (.ok id)])
  | .err m =>
    (.error m, apiCount + 1,
      [Event.apiPost rowTag content replyTo mediaIds (.err m)])

/-- `getImagesFromCell_` (capped at four blobs) followed by the
`uploadMediaToTwitter_` loop that drops failed uploads and keeps going. -/
def collectMediaIds (env : Env) (rowNumber : Nat) : List String :=
  (List.range (min (env.imagesOf rowNumber) 4)).filterMap
    (fun j => env.uploadOutcome rowNumber j)

/-- The character-count message written on exceeding the limit. -/
def limitMessage (charCount maxLength : Nat) : String :=
  "文字数超過: " ++ toString charCount ++ "文字 (制限" ++ toString maxLength ++ ")"

/-- The shared character-limit policy of both publishers: `.ok true` means
proceed, `.ok false` means the row was marked failed and is skipped, and
`.error` aborts the run (the configured `skipOnExceed is` true, so the
abort branch is dead; the zero-limit plan check is dead too since every
preset limit is positive). -/
def charLimitCheck (env : Env) (sheet : Sheet) (rowNumber : Nat)
    (content : String) : Except String Bool × Sheet × List Event :=
  if characterLimitEnabled then
    let plan := getXPlanConfig env
    if plan.2 = 0 then
      (.error ("無効なプラン設定: " ++ plan.1), sheet, [])
    else
      let charCount := countTwitterCharacters_ content
      if charCount > plan.2 then
        let message := limitMessage charCount plan.2
        match setRowStatus_ sheet rowNumber "failed" message with
        | (s2, e2) =>
          if skipOnExceed then (.ok false, s2, e2)
          else (.error ("行 " ++ toString rowNumber ++ " の" ++ message), s2, e2)
      else (.ok true, sheet, [])
  else (.ok true, sheet, [])

/-- The `try` block of `postSingleRow_`: resolve and upload media, publish
the content as a top-level post, record the URL, mark `posted`, and
best-effort post the note link as a reply (its failure is only logged);
a publish failure marks `failed` with `String(error)` and propagates. -/
def postSingleRowPublish (env : Env) (sheet : Sheet) (apiCount : Nat)
    (target : Target) : Out PUnit :=
  let r := target.rowNumber
  let mediaIds := collectMediaIds env r
  match postSingleTweet_ env apiCount (some r) target.content none mediaIds with
  | (.ok (tweetId, tweetUrl), ac1, evs1) =>
    let s1 := updateRow sheet r (fun c => { c with postedUrl := tweetUrl })
    match setRowStatus_ s1 r "posted" "" with
    | (s2, evs2) =>
      match target.noteUrl with
      | some note =>
        match postSingleTweet_ env ac1 none note (some tweetId) [] with
        | (_, ac2, evs3) =>
          ⟨.ok ⟨⟩, s2, ac2, evs1 ++ [Event.urlWrite r tweetUrl] ++ evs2 ++ evs3⟩
      | none => ⟨.ok ⟨⟩, s2, ac1, evs1 ++ [Event.urlWrite r tweetUrl] ++ evs2⟩
  | (.error m, ac1, evs1) =>
    match setRowStatus_ sheet r "failed" (jsErrorString m) with
    | (s2, evs2) => ⟨.error m, s2, ac1, evs1 ++ evs2⟩

/-- `postSingleRow_`: empty content marks `failed`("本文が空欄") and
returns; otherwise mark `posting`, apply the character-limit policy, then
publish. -/
def postSingleRow_ (env : Env) (sheet : Sheet) (apiCount : Nat)
    (target : Target) : Out PUnit :=
  let r := target.rowNumber
  if target.content = "" then
    match setRowStatus_ sheet r "failed" "本文が空欄" with
    | (s1, e1) => ⟨.ok ⟨⟩, s1, apiCount, e1⟩
  else
    match setRowStatus_ sheet r "posting" "" with
    | (s1, e1) =>
      match charLimitCheck env s1 r target.content with
      | (.error m, s2, e2) => ⟨.error m, s2, apiCount, e1 ++ e2⟩
      | (.ok false, s2, e2) => ⟨.ok ⟨⟩, s2, apiCount, e1 ++ e2⟩
      | (.ok true, s2, e2) =>
        match postSingleRowPublish env s2 apiCount target with
        | out => { out with trace := e1 ++ e2 ++ out.trace }

/-- The thread-row record `findThreadGroupRows_` collects. -/
structure ThreadRow where
  rowNumber : Nat
  content : String
  threadGroupId : String
deriving Repr, DecidableEq

/-- The status value the thread-group scan computes.  The scanned range is
only `CONFIG.columns.threadGroupId` = 9 columns wide, yet the status is
read at `row[CONFIG.columns.status - 1]` = `row[9]` — one past the end of
the 9-element row array — so the read yields `undefined` and
`String(undefined || '')` is always the empty string, for every row. -/
def threadScanStatusCell : String := ""

/-- The scan loop of `findThreadGroupRows_`: rows whose trimmed group id
equals the requested one (`none` models the `null` id that matches no
string) and whose trimmed content is non-empty.  The `posted`/`posting`
skip in the source is dead code: its status read lies outside the
9-column range (see `threadScanStatusCell`), so the computed status is
always blank and the skip never fires. -/
def findThreadGroupRowsFrom (gid : Option String) :
    Nat → List RowCells → List ThreadRow
  | _, [] => []
  | n, cells :: rest =>
    let tailRows := findThreadGroupRowsFrom gid (n + 1) rest
    let content := jsTrim cells.content
    let status := jsToLower (jsTrim threadScanStatusCell)
    let rowGid := jsTrim cells.threadGroupId
    if some rowGid = gid then
      if status = "posted" ∨ status = "posting" then tailRows
      else if content ≠ "" then ⟨n, content, rowGid⟩ :: tailRows
      else tailRows
    else tailRows

/-- `findThreadGroupRows_`.  Because of the out-of-range status read, the
resolved group is filtered by group id and non-empty content only: rows
already `posted` or `posting` are resolved too. -/
def findThreadGroupRows_ (sheet : Sheet) (gid : Option String) :
    List ThreadRow :=
  findThreadGroupRowsFrom gid dataStartRow sheet

/-- The publishing loop of `postThreadGroup_` over the resolved rows:
skip-and-mark empty content, mark `posting`, character-limit policy,
publish with `replyTo = previousTweetId`, record URL, mark `posted`,
pace with a 1s sleep between posts, and fail fast on a publish error.
Returns the final `previousTweetId`. -/
def threadLoop (env : Env) (total : Nat) :
    List ThreadRow → Nat → Sheet → Nat → Option String →
    Out (Option String)
  | [], _, sheet, ac, prev => ⟨.ok prev, sheet, ac, []⟩
  | row :: rest, i, sheet, ac, prev =>
    let r := row.rowNumber
    if row.content = "" then
      match setRowStatus_ sheet r "failed" "本文が空欄" with
      | (s1, e1) =>
        match threadLoop env total rest (i + 1) s1 ac prev with
        | out => { out with trace := e1 ++ out.trace }
    else
      match setRowStatus_ sheet r "posting" "" with
      | (s1, e1) =>
        match charLimitCheck env s1 r row.content with
        | (.error m, s2, e2) => ⟨.error m, s2, ac, e1 ++ e2⟩
        | (.ok false, s2, e2) =>
          match threadLoop env total rest (i + 1) s2 ac prev with
          | out => { out with trace := e1 ++ e2 ++ out.trace }
        | (.ok true, s2, e2) =>
          let mediaIds := collectMediaIds env r
          match postSingleTweet_ env ac (some r) row.content prev mediaIds with
          | (.ok (tweetId, tweetUrl), ac1, evA) =>
            let s3 := updateRow s2 r (fun c => { c with postedUrl := tweetUrl })
            match setRowStatus_ s3 r "posted" "" with
            | (s4, evB) =>
              let evSleep := if i < total - 1 then [Event.sleep 1000] else []
              match threadLoop env total rest (i + 1) s4 ac1 (some tweetId) with
              | out =>
                { out with trace := e1 ++ e2 ++ evA ++ [Event.urlWrite r tweetUrl] ++ evB ++ evSleep ++ out.trace }
          | (.error m, ac1, evA) =>
            match setRowStatus_ s2 r "failed" (jsErrorString m) with
            | (s3, evB) => ⟨.error m, s3, ac1, e1 ++ e2 ++ evA ++ evB⟩

/-- `postThreadGroup_`: resolve the group's rows (no-op when empty), run
the publishing loop, and afterwards — when the loop completed, the first
target carried a note link, and at least one post succeeded — best-effort
post the link as a reply to the last created tweet (failure logged only). -/
def postThreadGroup_ (env : Env) (sheet : Sheet) (apiCount : Nat)
    (firstTarget : Target) : Out PUnit :=
  let threadRows := findThreadGroupRows_ sheet firstTarget.threadGroupId
  if threadRows.length = 0 then ⟨.ok ⟨⟩, sheet, apiCount, []⟩
  else
    match threadLoop env threadRows.length threadRows 0 sheet apiCount none with
    | ⟨.error m, s', ac', evs⟩ => ⟨.error m, s', ac', evs⟩
    | ⟨.ok prev, s', ac', evs⟩ =>
      match firstTarget.noteUrl, prev with
      | some note, some pid =>
        match postSingleTweet_ env ac' none note (some pid) [] with
        | (_, ac2, ev2) =>
          ⟨.ok ⟨⟩, s', ac2, evs ++ [Event.sleep 1000] ++ ev2⟩
      | _, _ => ⟨.ok ⟨⟩, s', ac', evs⟩

/-- The credentials configuration error message. -/
def credsErrorMsg : String :=
  "スクリプトプロパティ X_API_KEY / X_API_SECRET / X_ACCESS_TOKEN / X_ACCESS_TOKEN_SECRET を設定してください。"

/-- JS falsiness of a `getProperty` result (`null` or the empty string). -/
def isFalsyStr : Option String → Bool
  | none => true
  | some s => s == ""

/-- `!apiKey || !apiSecret || !accessToken || !accessTokenSecret`. -/
def credsFalsy (env : Env) : Bool :=
  isFalsyStr env.apiKey || isFalsyStr env.apiSecret ||
  isFalsyStr env.accessToken || isFalsyStr env.accessTokenSecret

/-- The `try` body of `postNextScheduledToX` after the lock is held:
select the due row (return when none), load and check the credentials,
and dispatch on the thread group id. -/
def postNextScheduledToXBody (env : Env) (sheet : Sheet) : Out PUnit :=
  match findNextPublishableRow_ env sheet with
  | none => ⟨.ok ⟨⟩, sheet, 0, []⟩
  | some target =>
    if credsFalsy env then ⟨.error credsErrorMsg, sheet, 0, []⟩
    else
      match target.threadGroupId with
      | some _ => postThreadGroup_ env sheet 0 target
      | none => postSingleRow_ env sheet 0 target

/-- `postNextScheduledToX`: a failed `tryLock` is a logged no-op return;
the `catch` rethrows; the `finally` releases the lock on every exit path
(GAS `releaseLock` on an unheld lock is a no-op, so it runs even on the
lock-skipped path). -/
def postNextScheduledToX (env : Env) (sheet : Sheet) : Out PUnit :=
  let body :=
    if env.lockAcquired then
      match postNextScheduledToXBody env sheet with
      | b => { b with trace := Event.lockAcquired :: b.trace }
    else ⟨.ok ⟨⟩, sheet, 0, []⟩
  { body with trace := body.trace ++ [Event.lockReleased] }

/-! ### Spec-side thread-group resolution (for C5) -/

/-- The thread group as the spec states it: the ordered subsequence of rows
sharing the group id, filtered ONLY to exclude `posted`/`posting` rows. -/
def threadRowsSpecStated (sheet : Sheet) (gid : Option String) :
    List ThreadRow :=
  (List.enumFrom dataStartRow sheet).filterMap fun p =>
    let st := jsToLower (jsTrim p.2.status)
    if some (jsTrim p.2.threadGroupId) = gid ∧ st ≠ "posted" ∧ st ≠ "posting"
    then some ⟨p.1, jsTrim p.2.content, jsTrim p.2.threadGroupId⟩
    else none

/-- The thread group as the code actually resolves it: rows sharing the
group id whose trimmed content is non-empty, with NO status filter — the
source's `posted`/`posting` skip reads past its 9-column range and is
dead, so already-posted rows with content are resolved too. -/
def threadRowsSpecAmended (sheet : Sheet) (gid : Option String) :
    List ThreadRow :=
  (List.enumFrom dataStartRow sheet).filterMap fun p =>
    if some (jsTrim p.2.threadGroupId) = gid ∧ jsTrim p.2.content ≠ ""
    then some ⟨p.1, jsTrim p.2.content, jsTrim p.2.threadGroupId⟩
    else none

/-! ### Trace observations -/

/-- Is the event a write (status or posted-URL cell) to the given row? -/
def isWriteTo (r : Nat) : Event → Bool
  | .statusWrite r' _ _ => decide (r' = r)
  | .urlWrite r' _ => decide (r' = r)
  | _ => false

/-- The write events a trace performs on one row, in order. -/
def writesFor (r : Nat) (evs : List Event) : List Event :=
  evs.filter (isWriteTo r)

/-- The legal per-row write sequences of one run: untouched, or
`posting` then `failed`, or `posting`, the posted URL, then `posted`. -/
def shapeOk : List Event → Bool
  | [] => true
  | [.statusWrite _ "posting" _, .statusWrite _ "failed" _] => true
  | [.statusWrite _ "posting" _, .urlWrite _ _, .statusWrite _ "posted" _] => true
  | _ => false

/-- A trace respects the per-row status state machine for row `r`. -/
def goodRowWrites (r : Nat) (evs : List Event) : Bool :=
  shapeOk (writesFor r evs)

/-- The `previousTweetId` update a single event performs: a successful main
content publish becomes the new reply target, everything else keeps it. -/
def chainUpd (prev : Option String) (e : Event) : Option String :=
  match e with
  | .apiPost (some _) _ _ _ (.ok id) => some id
  | _ => prev

/-- Every main content publish in the trace carries as `replyTo` the id of
the most recent successful main publish before it (or the initial value). -/
def replyChain (prev : Option String) : List Event → Bool
  | [] => true
  | e :: rest =>
    (match e with
     | .apiPost (some _) _ rt _ _ => rt == prev
     | _ => true) && replyChain (chainUpd prev e) rest

/-- The rows of the main content publish calls, in call order. -/
def mainCallRows (evs : List Event) : List Nat :=
  evs.filterMap fun e =>
    match e with
    | .apiPost (some r) _ _ _ _ => some r
    | _ => none

/-- Fail-fast trace shape: after any main publish call that errs, the only
further event is marking that row `failed` with `String(error)`. -/
def failFast : List Event → Bool
  | [] => true
  | e :: rest =>
    match e with
    | .apiPost (some r) _ _ _ (.err m) =>
      rest == [Event.statusWrite r "failed" (jsErrorString m)]
    | _ => failFast rest

/-! ### Concrete sample inputs for witnesses and counterexamples -/

/-- A benign environment: lock held, all credentials present, free plan, no
images, every posting-API call succeeding with tweet id `100`, the clock at
the local midnight of serial day 1. -/
def sampleEnv : Env :=
  { now := serialBaseDate + msPerDay
    lockAcquired := true
    apiKey := some "k"
    apiSecret := some "s"
    accessToken := some "t"
    accessTokenSecret := some "u"
    xPlanType := none
    noteUrlOf := fun _ => ""
    imagesOf := fun _ => 0
    uploadOutcome := fun _ _ => none
    postOutcome := fun _ => .ok "100"
    numberParse := fun _ => none
    dateParse := fun _ => none }

/-- The same environment with every credential property missing. -/
def noCredsEnv : Env :=
  { sampleEnv with
    apiKey := none, apiSecret := none, accessToken := none,
    accessTokenSecret := none }

/-- The same environment with every posting-API call failing. -/
def failPostEnv : Env :=
  { sampleEnv with postOutcome := fun _ => .err "boom" }

/-- A pending row due exactly at `sampleEnv.now` (serial day 1, blank hour
and minute). -/
def dueRow : RowCells :=
  { content := "hi", day := .num 1, hour := .blank, minute := .blank
    postedUrl := "", threadGroupId := "", status := "" }

def dueSheet : Sheet := [dueRow]

/-- The selector's record for `dueRow` in `dueSheet`. -/
def dueTarget : Target :=
  { rowNumber := 2, content := "hi", noteUrl := none
    scheduledAt := serialBaseDate + msPerDay, threadGroupId := none }

def threadRowA : RowCells := { dueRow with content := "a", threadGroupId := "g" }

def threadRowB : RowCells := { dueRow with content := "b", threadGroupId := "g" }

/-- Two pending rows of thread group `g` (sheet rows 2 and 3). -/
def threadSheet : Sheet := [threadRowA, threadRowB]

/-- The selector's record for the first row of `threadSheet`. -/
def threadTarget : Target :=
  { rowNumber := 2, content := "a", noteUrl := none
    scheduledAt := serialBaseDate + msPerDay, threadGroupId := some "g" }

/-- Group `g` with an empty-content pending row (row 2) before a non-empty
one (row 3). -/
def emptyContentSheet : Sheet := [{ threadRowA with content := "" }, threadRowB]

/-- Group `g` with an already-`posted` row (row 2, non-empty content)
before a pending due row (row 3). -/
def postedThreadSheet : Sheet := [{ threadRowA with status := "posted" }, threadRowB]

/-- The sheet after a thread/single row is marked `posting` and then
`failed` for exceeding the character limit. -/
def sheetMarkSkip (env : Env) (sheet : Sheet) (r : Nat) (content : String) : Sheet :=
  (setRowStatus_ (setRowStatus_ sheet r "posting" "").1 r "failed"
    (limitMessage (countTwitterCharacters_ content) (getXPlanConfig env).2)).1

/-- The sheet after a row is marked `posting`, its URL recorded, and it is
marked `posted`. -/
def sheetMarkPosted (sheet : Sheet) (r : Nat) (url : String) : Sheet :=
  (setRowStatus_
    (updateRow (setRowStatus_ sheet r "posting" "").1 r
      (fun c => { c with postedUrl := url })) r "posted" "").1

/-- The sheet after a row is marked `posting` and then `failed` with a
publish error. -/
def sheetMarkErr (sheet : Sheet) (r : Nat) (m : String) : Sheet :=
  (setRowStatus_ (setRowStatus_ sheet r "posting" "").1 r "failed"
    (jsErrorString m)).1

/-! ### C4 — the character counter -/

/-- C4 (counterexample): the claim's derived value for
`count("a https://x.co/abc b")` is `3 + 23`, but deleting the URL leaves
the four characters `a`, space, space, `b`, so the code returns
`4 + 23 = 27`. -/
theorem c4_count_counterexample :
    countTwitterCharacters_ "a https://x.co/abc b" = 27 ∧
    countTwitterCharacters_ "a https://x.co/abc b" ≠ 3 + 23 := by
  decide

/-- C4 (amended): the counter replaces each URL-like substring
(`http(s)://` + non-whitespace run) by the fixed weight 23 and counts the
remaining text by code point: `count("") = 0`, `count("a") = 1`,
`count("https://x.co/abc") = 23`, `count("a https://x.co/abc b") = 4 + 23`
(both surrounding spaces are counted), and an astral-plane character
(a surrogate pair in JS) counts as 1. -/
theorem c4_count_values :
    countTwitterCharacters_ "" = 0 ∧
    countTwitterCharacters_ "a" = 1 ∧
    countTwitterCharacters_ "https://x.co/abc" = 23 ∧
    countTwitterCharacters_ "a https://x.co/abc b" = 4 + 23 ∧
    countTwitterCharacters_ "😀" = 1 := by
  decide

/-! ### C9 — hour/minute parsing -/

/-- C9 (counterexample): the hour parse accepts the cell `"12abc"` (as 12),
although the whole trimmed cell does not denote an integer — the claimed
"accepts iff the whole trimmed cell denotes an integer in range" is false. -/
theorem c9_parse_counterexample :
    parseTimeCell (TimeCell.val "12abc") 23 = some 12 ∧
    wholeIntLit (jsTrim "12abc") = none := by
  decide

/-- C9 (amended): a blank hour/minute cell is treated as 0; a non-blank
cell is accepted iff JS `parseInt` of the trimmed cell succeeds — an
optional sign followed by at least one leading digit, trailing characters
ignored — with a value in `[0, max]`; a failed hour or minute parse makes
the resolved schedule undefined, and a row without a resolved schedule is
skipped by the selector scan. -/
theorem c9_timeParse :
    (∀ max : Int, parseTimeCell TimeCell.blank max = some 0) ∧
    (∀ (s : String) (max : Int),
      (parseTimeCell (TimeCell.val s) max).isSome = true ↔
        ∃ n, jsParseIntDec (jsTrim s) = some n ∧ 0 ≤ n ∧ n ≤ max) ∧
    (∀ (env : Env) (day : DayCell) (h m : TimeCell),
      parseTimeCell h 23 = none ∨ parseTimeCell m 59 = none →
      resolveScheduledAt env day h m = none) ∧
    (∀ (env : Env) (n : Nat) (cells : RowCells) (rest : List RowCells),
      resolveScheduledAt env cells.day cells.hour cells.minute = none →
      findNextFrom env n (cells :: rest) = findNextFrom env (n + 1) rest) := by
  refine ⟨fun _ => rfl, ?_, ?_, ?_⟩
  · intro s mx
    cases h : jsParseIntDec (jsTrim s) with
    | none => simp [parseTimeCell, h]
    | some n =>
      simp only [parseTimeCell, h]
      split
      · rename_i hcond
        constructor
        · intro hfalse
          exact absurd hfalse (by simp)
        · rintro ⟨n', hn', h0, h1⟩
          cases Option.some.inj hn'
          exfalso
          omega
      · rename_i hcond
        simp only [Option.isSome_some, true_iff]
        exact ⟨n, rfl, by omega, by omega⟩
  · intro env day h m hpm
    cases day with
    | blank => rfl
    | date t =>
      cases hb : resolveBaseDate env (DayCell.date t) with
      | none => simp [resolveScheduledAt, hb]
      | some base =>
        rcases hpm with h1 | h1 <;>
          simp [resolveScheduledAt, hb, h1]
    | num q =>
      cases hb : resolveBaseDate env (DayCell.num q) with
      | none => simp [resolveScheduledAt, hb]
      | some base =>
        rcases hpm with h1 | h1 <;>
          simp [resolveScheduledAt, hb, h1]
    | str s =>
      cases hb : resolveBaseDate env (DayCell.str s) with
      | none => simp [resolveScheduledAt, hb]
      | some base =>
        rcases hpm with h1 | h1 <;>
          simp [resolveScheduledAt, hb, h1]
  · intro env n cells rest hres
    simp only [findNextFrom, hres]
    split_ifs <;> rfl

/-- C9 (witness): the amended statement at concrete inputs — a blank cell,
and a row whose hour cell `"x"` fails to parse and is therefore skipped by
the scan. -/
theorem c9_timeParse_witness :
    parseTimeCell TimeCell.blank 23 = some 0 ∧
    resolveScheduledAt sampleEnv DayCell.blank (TimeCell.val "x") TimeCell.blank = none ∧
    findNextFrom sampleEnv 2
        [{ dueRow with hour := TimeCell.val "x" }] = findNextFrom sampleEnv 3 [] :=
  ⟨c9_timeParse.1 23,
   c9_timeParse.2.2.1 sampleEnv DayCell.blank (TimeCell.val "x") TimeCell.blank
     (Or.inl (by decide)),
   c9_timeParse.2.2.2 sampleEnv 2 { dueRow with hour := TimeCell.val "x" } []
     (by decide)⟩

/-! ### C1 — the due-row selector -/

/-- The scan of `findNextPublishableRow_` returns exactly the first
spec-eligible row. -/
theorem findNextFrom_eq_spec (env : Env) :
    ∀ (l : List RowCells) (n : Nat),
      findNextFrom env n l = selectNextSpecFrom env n l := by
  intro l
  induction l with
  | nil => intro n; rfl
  | cons cells rest ih =>
    intro n
    by_cases hc : jsTrim cells.content = ""
    · simp [findNextFrom, selectNextSpecFrom, eligibleSpec, hc, ih]
    · by_cases hp : jsToLower (jsTrim cells.status) = "posted"
      · simp [findNextFrom, selectNextSpecFrom, eligibleSpec, hc, hp, ih]
      · by_cases hq : jsToLower (jsTrim cells.status) = "posting"
        · simp [findNextFrom, selectNextSpecFrom, eligibleSpec, hc, hp, hq, ih]
        · cases hres : resolveScheduledAt env cells.day cells.hour cells.minute with
          | none =>
            simp [findNextFrom, selectNextSpecFrom, eligibleSpec, hc, hp, hq, hres, ih]
          | some t =>
            by_cases h1 : t > env.now + toleranceMs
            · have h1' : ¬ (t ≤ env.now + toleranceMs) := by omega
              simp [findNextFrom, selectNextSpecFrom, eligibleSpec, hc, hp, hq, hres,
                h1, h1', ih]
            · by_cases h2 : t < env.now - toleranceMs
              · have h2' : ¬ (env.now - toleranceMs ≤ t) := by omega
                simp [findNextFrom, selectNextSpecFrom, eligibleSpec, hc, hp, hq, hres,
                  h1, h2, h2', ih]
              · have ha : env.now - toleranceMs ≤ t := by omega
                have hb : t ≤ env.now + toleranceMs := by omega
                simp [findNextFrom, selectNextSpecFrom, eligibleSpec, hc, hp, hq, hres,
                  h1, h2, ha, hb]

/-- C1: for every sheet state and clock, `findNextPublishableRow_` returns
the first row in store order (scanning from the data start row) whose
trimmed content is non-empty, whose trimmed lowercased status is neither
`posted` nor `posting`, and whose resolved schedule is defined and in the
closed window `[now - tolerance, now + tolerance]` — and `none` when no
row qualifies.  In particular (second conjunct, for a row passing the
content and status checks) eligibility is exactly the closed interval
condition, so a schedule of exactly `now + tolerance` is eligible and one
of `now + tolerance + 1` ms is not. -/
theorem c1_selector_first_eligible :
    (∀ (env : Env) (sheet : Sheet),
      findNextPublishableRow_ env sheet = selectNextSpec env sheet) ∧
    (∀ (env : Env) (cells : RowCells) (t : Int),
      resolveScheduledAt env cells.day cells.hour cells.minute = some t →
      jsTrim cells.content ≠ "" →
      jsToLower (jsTrim cells.status) ≠ "posted" →
      jsToLower (jsTrim cells.status) ≠ "posting" →
      (eligibleSpec env cells = true ↔
        env.now - toleranceMs ≤ t ∧ t ≤ env.now + toleranceMs)) := by
  constructor
  · intro env sheet
    exact findNextFrom_eq_spec env sheet dataStartRow
  · intro env cells t hres hc hp hq
    simp [eligibleSpec, hres, hc, hp, hq]

/-- C1 (witness): the refinement at a concrete sheet, and the window
condition applied to the concrete due row, making it eligible. -/
theorem c1_selector_witness :
    findNextPublishableRow_ sampleEnv dueSheet = selectNextSpec sampleEnv dueSheet ∧
    eligibleSpec sampleEnv dueRow = true :=
  ⟨c1_selector_first_eligible.1 sampleEnv dueSheet,
   (c1_selector_first_eligible.2 sampleEnv dueRow (serialBaseDate + msPerDay)
      (by decide) (by decide) (by decide) (by decide)).mpr (by decide)⟩

/-! ### C7 — guaranteed lock release -/

/-- C7: on every execution the final trace event is the lock release (the
`finally` block), and whenever the lock was acquired the run's result —
normal return, no-due-row return, or any thrown error — is exactly the
body's result, re-surfaced after the release. -/
theorem c7_lock_always_released :
    ∀ (env : Env) (sheet : Sheet),
      ((postNextScheduledToX env sheet).trace).getLast? = some Event.lockReleased ∧
      (env.lockAcquired = true →
        (postNextScheduledToX env sheet).res = (postNextScheduledToXBody env sheet).res ∧
        (postNextScheduledToX env sheet).trace =
          Event.lockAcquired ::
            ((postNextScheduledToXBody env sheet).trace ++ [Event.lockReleased])) := by
  intro env sheet
  cases henv : env.lockAcquired with
  | false =>
    refine ⟨?_, by intro h; exact absurd h (by simp [henv])⟩
    simp [postNextScheduledToX, henv]
  | true =>
    refine ⟨?_, fun _ => ⟨?_, ?_⟩⟩
    · have htr : (postNextScheduledToX env sheet).trace =
          (Event.lockAcquired :: (postNextScheduledToXBody env sheet).trace) ++
            [Event.lockReleased] := by
        simp [postNextScheduledToX, henv]
      rw [htr, List.getLast?_concat]
    · simp [postNextScheduledToX, henv]
    · simp [postNextScheduledToX, henv]

/-- C7 (witness): a concrete run (lock held, credentials missing, a row
due) whose body throws the configuration error: the trace ends with the
lock release and the error still propagates as the run's result. -/
theorem c7_lock_always_released_witness :
    ((postNextScheduledToX noCredsEnv dueSheet).trace).getLast? = some Event.lockReleased ∧
    (postNextScheduledToX noCredsEnv dueSheet).res = (postNextScheduledToXBody noCredsEnv dueSheet).res ∧
    (postNextScheduledToXBody noCredsEnv dueSheet).res = Except.error credsErrorMsg :=
  ⟨(c7_lock_always_released noCredsEnv dueSheet).1,
   ((c7_lock_always_released noCredsEnv dueSheet).2 rfl).1,
   rfl⟩

/-! ### C8 — credential loading order -/

/-- C8 (counterexample): a run that acquires the lock with every credential
property missing but no row due returns normally — the configuration error
is NOT raised regardless of whether a row is due, because the code invokes
the due-row selection first and returns before touching the credentials. -/
theorem c8_creds_counterexample :
    credsFalsy noCredsEnv = true ∧ noCredsEnv.lockAcquired = true ∧
    (postNextScheduledToX noCredsEnv ([] : Sheet)).res = Except.ok PUnit.unit :=
  ⟨rfl, rfl, rfl⟩

/-- C8 (amended): after acquiring the lock the coordinator invokes the
due-row selection FIRST; only when a row is due does it load the four
credential properties, and then any missing or empty one raises the fatal
configuration error; when no row is due it returns without any credential
check. -/
theorem c8_creds_checked_when_due :
    ∀ (env : Env) (sheet : Sheet), env.lockAcquired = true →
      ((findNextPublishableRow_ env sheet).isSome = true → credsFalsy env = true →
        (postNextScheduledToX env sheet).res = Except.error credsErrorMsg) ∧
      (findNextPublishableRow_ env sheet = none →
        (postNextScheduledToX env sheet).res = Except.ok PUnit.unit) := by
  intro env sheet hl
  constructor
  · intro hsome hcf
    cases hfind : findNextPublishableRow_ env sheet with
    | none => rw [hfind] at hsome; exact absurd hsome (by simp)
    | some t =>
      simp [postNextScheduledToX, postNextScheduledToXBody, hl, hfind, hcf]
  · intro hnone
    simp [postNextScheduledToX, postNextScheduledToXBody, hl, hnone]

/-- C8 (witness): with missing credentials, the concrete run with a due row
throws the configuration error and the concrete run with an empty sheet
returns normally. -/
theorem c8_creds_checked_when_due_witness :
    (postNextScheduledToX noCredsEnv dueSheet).res = Except.error credsErrorMsg ∧
    (postNextScheduledToX noCredsEnv ([] : Sheet)).res = Except.ok PUnit.unit :=
  ⟨(c8_creds_checked_when_due noCredsEnv dueSheet rfl).1 rfl rfl,
   (c8_creds_checked_when_due noCredsEnv ([] : Sheet) rfl).2 rfl⟩

/-! ### Helper lemmas about the selector and the single-row publisher -/

/-- Any row the scan returns has non-empty (trimmed) content. -/
theorem findNextFrom_content (env : Env) :
    ∀ (l : List RowCells) (n : Nat) (t : Target),
      findNextFrom env n l = some t → t.content ≠ "" := by
  intro l
  induction l with
  | nil => intro n t h; cases h
  | cons cells rest ih =>
    intro n t h
    simp only [findNextFrom] at h
    split at h
    · exact ih _ _ h
    · rename_i hc
      split at h
      · exact ih _ _ h
      · split at h
        · exact ih _ _ h
        · split at h
          · exact ih _ _ h
          · split at h
            · exact ih _ _ h
            · injection h with h'
              subst h'
              simpa [mkTarget] using hc

/-- `String(error)` never equals the empty-content detail. -/
theorem jsErrorString_ne_emptyMsg (m : String) : jsErrorString m ≠ "本文が空欄" := by
  intro h
  have h' : "Error: " ++ m = "本文が空欄" := h
  have hlen := congrArg String.length h'
  rw [String.length_append] at hlen
  rw [show ("Error: ").length = 7 from rfl, show ("本文が空欄").length = 5 from rfl] at hlen
  omega

/-- The length-exceeded detail never equals the empty-content detail. -/
theorem limitMessage_ne_emptyMsg (c mx : Nat) : limitMessage c mx ≠ "本文が空欄" := by
  intro h
  have hlen := congrArg String.length h
  simp only [limitMessage, String.length_append] at hlen
  rw [show ("文字数超過: ").length = 7 from rfl, show ("文字 (制限").length = 6 from rfl,
      show (")").length = 1 from rfl, show ("本文が空欄").length = 5 from rfl] at hlen
  omega

/-- Every plan preset has a positive character limit, so the invalid-plan
throw is unreachable. -/
theorem getXPlanConfig_pos (env : Env) : (getXPlanConfig env).2 ≠ 0 := by
  unfold getXPlanConfig
  cases env.xPlanType <;> dsimp only <;> split_ifs <;> simp

/-- The character-limit policy either lets the row through untouched or
marks it failed with the length-exceeded detail and skips it (the fatal
configurations are dead under the frozen `CONFIG`). -/
theorem charLimitCheck_spec (env : Env) (sheet : Sheet) (r : Nat) (content : String) :
    (countTwitterCharacters_ content ≤ (getXPlanConfig env).2 ∧
      charLimitCheck env sheet r content = (.ok true, sheet, [])) ∨
    (countTwitterCharacters_ content > (getXPlanConfig env).2 ∧
      charLimitCheck env sheet r content =
        (.ok false,
         (setRowStatus_ sheet r "failed"
            (limitMessage (countTwitterCharacters_ content) (getXPlanConfig env).2)).1,
         [Event.statusWrite r "failed"
            (limitMessage (countTwitterCharacters_ content) (getXPlanConfig env).2)])) := by
  by_cases hgt : countTwitterCharacters_ content > (getXPlanConfig env).2
  · right
    refine ⟨hgt, ?_⟩
    simp [charLimitCheck, characterLimitEnabled, skipOnExceed, getXPlanConfig_pos env,
      hgt, setRowStatus_]
  · left
    refine ⟨by omega, ?_⟩
    simp [charLimitCheck, characterLimitEnabled, getXPlanConfig_pos env, hgt]

/-- Full trace characterization of `postSingleRow_` on a row with
non-empty content: mark `posting`, then either fail on the length check,
or publish — failing and propagating, or succeeding and recording the
URL, marking `posted`, and possibly making the best-effort note reply. -/
theorem postSingleRow_cases (env : Env) (sheet : Sheet) (ac : Nat) (target : Target)
    (hc : target.content ≠ "") :
    (∃ m, (postSingleRow_ env sheet ac target).trace =
      [Event.statusWrite target.rowNumber "posting" "",
       Event.statusWrite target.rowNumber "failed" (limitMessage m (getXPlanConfig env).2)]) ∨
    (∃ m mids, (postSingleRow_ env sheet ac target).trace =
      [Event.statusWrite target.rowNumber "posting" "",
       Event.apiPost (some target.rowNumber) target.content none mids (.err m),
       Event.statusWrite target.rowNumber "failed" (jsErrorString m)]) ∨
    (∃ id mids, (postSingleRow_ env sheet ac target).trace =
      [Event.statusWrite target.rowNumber "posting" "",
       Event.apiPost (some target.rowNumber) target.content none mids (.ok id),
       Event.urlWrite target.rowNumber (tweetUrlOf id),
       Event.statusWrite target.rowNumber "posted" ""]) ∨
    (∃ id mids note out, (postSingleRow_ env sheet ac target).trace =
      [Event.statusWrite target.rowNumber "posting" "",
       Event.apiPost (some target.rowNumber) target.content none mids (.ok id),
       Event.urlWrite target.rowNumber (tweetUrlOf id),
       Event.statusWrite target.rowNumber "posted" "",
       Event.apiPost none note (some id) [] out]) := by
  by_cases hgt : countTwitterCharacters_ target.content > (getXPlanConfig env).2
  · refine Or.inl ⟨countTwitterCharacters_ target.content, ?_⟩
    simp [postSingleRow_, hc, setRowStatus_, charLimitCheck, characterLimitEnabled,
      skipOnExceed, getXPlanConfig_pos env, hgt]
  · cases hout : env.postOutcome ac with
    | ok id =>
      cases hnote : target.noteUrl with
      | none =>
        refine Or.inr (Or.inr (Or.inl ⟨id, collectMediaIds env target.rowNumber, ?_⟩))
        simp [postSingleRow_, hc, setRowStatus_, charLimitCheck, characterLimitEnabled,
          skipOnExceed, getXPlanConfig_pos env, hgt, postSingleRowPublish,
          postSingleTweet_, hout, hnote]
      | some note =>
        refine Or.inr (Or.inr (Or.inr ⟨id, collectMediaIds env target.rowNumber, note,
          env.postOutcome (ac + 1), ?_⟩))
        cases hout2 : env.postOutcome (ac + 1) <;>
          simp [postSingleRow_, hc, setRowStatus_, charLimitCheck, characterLimitEnabled,
            skipOnExceed, getXPlanConfig_pos env, hgt, postSingleRowPublish,
            postSingleTweet_, hout, hnote, hout2]
    | err m =>
      refine Or.inr (Or.inl ⟨m, collectMediaIds env target.rowNumber, ?_⟩)
      simp [postSingleRow_, hc, setRowStatus_, charLimitCheck, characterLimitEnabled,
        skipOnExceed, getXPlanConfig_pos env, hgt, postSingleRowPublish,
        postSingleTweet_, hout]

/-! ### C10 — the empty-content branch is unreachable for selected rows -/

/-- C10: every row the selector returns has non-empty trimmed content, so
when the coordinator hands the selected row to `postSingleRow_` the first
thing written is the `posting` mark — the empty-content failure branch
(mark `failed`("本文が空欄") without calling the API) is never taken, and
no event of the dispatch marks the row failed with that detail. -/
theorem c10_empty_branch_unreachable :
    ∀ (env : Env) (sheet : Sheet) (t : Target),
      findNextPublishableRow_ env sheet = some t →
      t.content ≠ "" ∧
      ((postSingleRow_ env sheet 0 t).trace).head? =
        some (Event.statusWrite t.rowNumber "posting" "") ∧
      ∀ e ∈ (postSingleRow_ env sheet 0 t).trace,
        e ≠ Event.statusWrite t.rowNumber "failed" "本文が空欄" := by
  intro env sheet t h
  have hc : t.content ≠ "" := findNextFrom_content env sheet dataStartRow t h
  refine ⟨hc, ?_, ?_⟩
  · rcases postSingleRow_cases env sheet 0 t hc with
      ⟨m, htr⟩ | ⟨m, mids, htr⟩ | ⟨id, mids, htr⟩ | ⟨id, mids, note, out, htr⟩ <;>
      rw [htr] <;> rfl
  · intro e he
    rcases postSingleRow_cases env sheet 0 t hc with
      ⟨m, htr⟩ | ⟨m, mids, htr⟩ | ⟨id, mids, htr⟩ | ⟨id, mids, note, out, htr⟩ <;>
      rw [htr] at he <;>
      simp only [List.mem_cons, List.not_mem_nil, or_false] at he
    · rcases he with rfl | rfl
      · intro hbad; injection hbad with h1 h2 h3; exact absurd h2 (by decide)
      · intro hbad; injection hbad with h1 h2 h3
        exact limitMessage_ne_emptyMsg _ _ h3
    · rcases he with rfl | rfl | rfl
      · intro hbad; injection hbad with h1 h2 h3; exact absurd h2 (by decide)
      · intro hbad; cases hbad
      · intro hbad; injection hbad with h1 h2 h3
        exact jsErrorString_ne_emptyMsg _ h3
    · rcases he with rfl | rfl | rfl | rfl
      · intro hbad; injection hbad with h1 h2 h3; exact absurd h2 (by decide)
      · intro hbad; cases hbad
      · intro hbad; cases hbad
      · intro hbad; injection hbad with h1 h2 h3; exact absurd h2 (by decide)
    · rcases he with rfl | rfl | rfl | rfl | rfl
      · intro hbad; injection hbad with h1 h2 h3; exact absurd h2 (by decide)
      · intro hbad; cases hbad
      · intro hbad; cases hbad
      · intro hbad; injection hbad with h1 h2 h3; exact absurd h2 (by decide)
      · intro hbad; cases hbad

/-- C10 (witness): the concrete due row is selected, its content is
non-empty, and its dispatch opens with the `posting` mark. -/
theorem c10_empty_branch_unreachable_witness :
    dueTarget.content ≠ "" ∧
    ((postSingleRow_ sampleEnv dueSheet 0 dueTarget).trace).head? =
      some (Event.statusWrite dueTarget.rowNumber "posting" "") ∧
    Event.statusWrite dueTarget.rowNumber "posting" "" ≠
      Event.statusWrite dueTarget.rowNumber "failed" "本文が空欄" := by
  have h := c10_empty_branch_unreachable sampleEnv dueSheet dueTarget (by decide)
  exact ⟨h.1, h.2.1, h.2.2 (Event.statusWrite dueTarget.rowNumber "posting" "")
    (by decide)⟩

/-! ### Thread-loop step lemmas -/

/-- Writes at one list index leave every other index unchanged. -/
theorem updateAt_get?_ne (f : RowCells → RowCells) :
    ∀ (l : List RowCells) (i k : Nat), k ≠ i →
      (updateAt l i f).get? k = l.get? k := by
  intro l
  induction l with
  | nil => intro i k _; simp [updateAt]
  | cons c rest ih =>
    intro i k hk
    cases i with
    | zero =>
      cases k with
      | zero => exact absurd rfl hk
      | succ k' => simp [updateAt]
    | succ i' =>
      cases k with
      | zero => simp [updateAt]
      | succ k' => simpa [updateAt] using ih i' k' (by omega)

/-- `setRowStatus_` leaves every other row's cells unchanged. -/
theorem setRowStatus_frame (sheet : Sheet) (r : Nat) (st msg : String) (k : Nat)
    (hk : k ≠ r - dataStartRow) :
    (setRowStatus_ sheet r st msg).1.get? k = sheet.get? k := by
  unfold setRowStatus_ updateRow
  split_ifs
  · rw [updateAt_get?_ne _ _ _ _ hk, updateAt_get?_ne _ _ _ _ hk]
  · rw [updateAt_get?_ne _ _ _ _ hk]

/-- One loop iteration on a row over the character limit: mark `posting`,
mark `failed` with the length detail, continue with the rest. -/
theorem threadLoop_cons_skip (env : Env) (total : Nat) (row : ThreadRow)
    (rest : List ThreadRow) (i : Nat) (sheet : Sheet) (ac : Nat)
    (prev : Option String) (hc : row.content ≠ "")
    (hgt : countTwitterCharacters_ row.content > (getXPlanConfig env).2) :
    threadLoop env total (row :: rest) i sheet ac prev =
      ⟨(threadLoop env total rest (i + 1)
          (sheetMarkSkip env sheet row.rowNumber row.content) ac prev).res,
       (threadLoop env total rest (i + 1)
          (sheetMarkSkip env sheet row.rowNumber row.content) ac prev).sheet,
       (threadLoop env total rest (i + 1)
          (sheetMarkSkip env sheet row.rowNumber row.content) ac prev).apiCount,
       Event.statusWrite row.rowNumber "posting" "" ::
         Event.statusWrite row.rowNumber "failed"
           (limitMessage (countTwitterCharacters_ row.content) (getXPlanConfig env).2) ::
         (threadLoop env total rest (i + 1)
            (sheetMarkSkip env sheet row.rowNumber row.content) ac prev).trace⟩ := by
  simp [threadLoop, hc, setRowStatus_, charLimitCheck, characterLimitEnabled,
    skipOnExceed, getXPlanConfig_pos env, hgt, sheetMarkSkip]

/-- One loop iteration on a row within the limit whose publish succeeds:
mark `posting`, publish as a reply to `prev`, record the URL, mark
`posted`, pace unless last, continue with the new tweet id as `prev`. -/
theorem threadLoop_cons_ok (env : Env) (total : Nat) (row : ThreadRow)
    (rest : List ThreadRow) (i : Nat) (sheet : Sheet) (ac : Nat)
    (prev : Option String) (id : String) (hc : row.content ≠ "")
    (hle : ¬ countTwitterCharacters_ row.content > (getXPlanConfig env).2)
    (hout : env.postOutcome ac = .ok id) :
    threadLoop env total (row :: rest) i sheet ac prev =
      ⟨(threadLoop env total rest (i + 1)
          (sheetMarkPosted sheet row.rowNumber (tweetUrlOf id)) (ac + 1) (some id)).res,
       (threadLoop env total rest (i + 1)
          (sheetMarkPosted sheet row.rowNumber (tweetUrlOf id)) (ac + 1) (some id)).sheet,
       (threadLoop env total rest (i + 1)
          (sheetMarkPosted sheet row.rowNumber (tweetUrlOf id)) (ac + 1) (some id)).apiCount,
       Event.statusWrite row.rowNumber "posting" "" ::
         Event.apiPost (some row.rowNumber) row.content prev
           (collectMediaIds env row.rowNumber) (.ok id) ::
         Event.urlWrite row.rowNumber (tweetUrlOf id) ::
         Event.statusWrite row.rowNumber "posted" "" ::
         ((if i < total - 1 then [Event.sleep 1000] else []) ++
          (threadLoop env total rest (i + 1)
            (sheetMarkPosted sheet row.rowNumber (tweetUrlOf id)) (ac + 1) (some id)).trace)⟩ := by
  simp [threadLoop, hc, setRowStatus_, charLimitCheck, characterLimitEnabled,
    skipOnExceed, getXPlanConfig_pos env, hle, postSingleTweet_, hout,
    sheetMarkPosted, updateRow]

/-- One loop iteration on a row within the limit whose publish fails: mark
`posting`, the failing call, mark `failed` with `String(error)`, stop. -/
theorem threadLoop_cons_err (env : Env) (total : Nat) (row : ThreadRow)
    (rest : List ThreadRow) (i : Nat) (sheet : Sheet) (ac : Nat)
    (prev : Option String) (m : String) (hc : row.content ≠ "")
    (hle : ¬ countTwitterCharacters_ row.content > (getXPlanConfig env).2)
    (hout : env.postOutcome ac = .err m) :
    threadLoop env total (row :: rest) i sheet ac prev =
      ⟨.error m, sheetMarkErr sheet row.rowNumber m, ac + 1,
       [Event.statusWrite row.rowNumber "posting" "",
        Event.apiPost (some row.rowNumber) row.content prev
          (collectMediaIds env row.rowNumber) (.err m),
        Event.statusWrite row.rowNumber "failed" (jsErrorString m)]⟩ := by
  simp [threadLoop, hc, setRowStatus_, charLimitCheck, characterLimitEnabled,
    skipOnExceed, getXPlanConfig_pos env, hle, postSingleTweet_, hout,
    sheetMarkErr, updateRow]

/-! ### Facts about the resolved thread rows -/

/-- Every resolved thread row has non-empty (trimmed) content. -/
theorem findThreadGroupRowsFrom_content (gid : Option String) :
    ∀ (l : List RowCells) (n : Nat) (row : ThreadRow),
      row ∈ findThreadGroupRowsFrom gid n l → row.content ≠ "" := by
  intro l
  induction l with
  | nil => intro n row h; cases h
  | cons cells rest ih =>
    intro n row h
    simp only [findThreadGroupRowsFrom] at h
    split at h
    · split at h
      · exact ih _ _ h
      · split at h
        · rcases List.mem_cons.mp h with rfl | h'
          · rename_i hcont; exact hcont
          · exact ih _ _ h'
        · exact ih _ _ h
    · exact ih _ _ h

/-- Every resolved thread row's number is at least the scan start. -/
theorem findThreadGroupRowsFrom_lb (gid : Option String) :
    ∀ (l : List RowCells) (n : Nat) (row : ThreadRow),
      row ∈ findThreadGroupRowsFrom gid n l → n ≤ row.rowNumber := by
  intro l
  induction l with
  | nil => intro n row h; cases h
  | cons cells rest ih =>
    intro n row h
    simp only [findThreadGroupRowsFrom] at h
    split at h
    · split at h
      · exact le_of_lt (lt_of_lt_of_le (by omega) (ih _ _ h))
      · split at h
        · rcases List.mem_cons.mp h with rfl | h'
          · exact le_refl _
          · exact le_of_lt (lt_of_lt_of_le (by omega) (ih _ _ h'))
        · exact le_of_lt (lt_of_lt_of_le (by omega) (ih _ _ h))
    · exact le_of_lt (lt_of_lt_of_le (by omega) (ih _ _ h))

/-- The resolved thread rows appear in strictly increasing row order. -/
theorem findThreadGroupRowsFrom_sorted (gid : Option String) :
    ∀ (l : List RowCells) (n : Nat),
      List.Pairwise (fun a b => a.rowNumber < b.rowNumber)
        (findThreadGroupRowsFrom gid n l) := by
  intro l
  induction l with
  | nil => intro n; exact List.Pairwise.nil
  | cons cells rest ih =>
    intro n
    simp only [findThreadGroupRowsFrom]
    split
    · split
      · exact ih _
      · split
        · refine List.Pairwise.cons ?_ (ih _)
          intro row hrow
          have hlb := findThreadGroupRowsFrom_lb gid rest (n + 1) row hrow
          show n < row.rowNumber
          omega
        · exact ih _
    · exact ih _

/-! ### Trace algebra -/

/-- `writesFor` distributes over trace concatenation. -/
theorem writesFor_append (r : Nat) (l1 l2 : List Event) :
    writesFor r (l1 ++ l2) = writesFor r l1 ++ writesFor r l2 :=
  List.filter_append l1 l2

/-- `mainCallRows` distributes over trace concatenation. -/
theorem mainCallRows_append (l1 l2 : List Event) :
    mainCallRows (l1 ++ l2) = mainCallRows l1 ++ mainCallRows l2 :=
  List.filterMap_append l1 l2 _

/-- A main publish call in a trace contributes its row number. -/
theorem mem_mainCallRows {r : Nat} {c : String} {rt : Option String}
    {mids : List String} {out : PostOutcome} {evs : List Event}
    (h : Event.apiPost (some r) c rt mids out ∈ evs) : r ∈ mainCallRows evs := by
  unfold mainCallRows
  exact List.mem_filterMap.mpr ⟨_, h, rfl⟩

/-- `replyChain` over a concatenation: check the first part, then the
second starting from the reply target the first part folds to. -/
theorem replyChain_append (l1 : List Event) :
    ∀ (p : Option String) (l2 : List Event),
      replyChain p (l1 ++ l2) =
        (replyChain p l1 && replyChain (List.foldl chainUpd p l1) l2) := by
  induction l1 with
  | nil => intro p l2; simp [replyChain]
  | cons e rest ih =>
    intro p l2
    simp only [List.cons_append, replyChain, List.append_eq, List.foldl_cons, ih,
      Bool.and_assoc]

/-! ### Reply chaining and call order of the thread loop -/

/-- The thread loop always satisfies the reply chain discipline: every main
publish call carries the id of the most recent successful publish (or the
initial `prev`). -/
theorem threadLoop_chain (env : Env) (total : Nat) :
    ∀ (rows : List ThreadRow) (i : Nat) (sheet : Sheet) (ac : Nat)
      (prev : Option String),
      (∀ row ∈ rows, row.content ≠ "") →
      replyChain prev (threadLoop env total rows i sheet ac prev).trace = true := by
  intro rows
  induction rows with
  | nil => intro i sheet ac prev _; simp [threadLoop, replyChain]
  | cons row rest ih =>
    intro i sheet ac prev hcont
    have hc : row.content ≠ "" := hcont row (List.mem_cons_self _ _)
    have hrest : ∀ r ∈ rest, r.content ≠ "" :=
      fun r hr => hcont r (List.mem_cons_of_mem _ hr)
    by_cases hgt : countTwitterCharacters_ row.content > (getXPlanConfig env).2
    · rw [threadLoop_cons_skip env total row rest i sheet ac prev hc hgt]
      simp [replyChain, chainUpd, ih _ _ _ _ hrest]
    · cases hout : env.postOutcome ac with
      | ok id =>
        rw [threadLoop_cons_ok env total row rest i sheet ac prev id hc hgt hout]
        by_cases hsl : i < total - 1 <;>
          simp [hsl, replyChain, chainUpd, ih _ _ _ _ hrest]
      | err m =>
        rw [threadLoop_cons_err env total row rest i sheet ac prev m hc hgt hout]
        simp [replyChain, chainUpd]

/-- The rows of the main publish calls the loop makes form a subsequence of
the processed rows, in order. -/
theorem threadLoop_calls (env : Env) (total : Nat) :
    ∀ (rows : List ThreadRow) (i : Nat) (sheet : Sheet) (ac : Nat)
      (prev : Option String),
      (∀ row ∈ rows, row.content ≠ "") →
      List.Sublist (mainCallRows (threadLoop env total rows i sheet ac prev).trace)
        (rows.map ThreadRow.rowNumber) := by
  intro rows
  induction rows with
  | nil => intro i sheet ac prev _; simp [threadLoop, mainCallRows]
  | cons row rest ih =>
    intro i sheet ac prev hcont
    have hc : row.content ≠ "" := hcont row (List.mem_cons_self _ _)
    have hrest : ∀ r ∈ rest, r.content ≠ "" :=
      fun r hr => hcont r (List.mem_cons_of_mem _ hr)
    by_cases hgt : countTwitterCharacters_ row.content > (getXPlanConfig env).2
    · rw [threadLoop_cons_skip env total row rest i sheet ac prev hc hgt]
      simp only [mainCallRows, List.filterMap_cons]
      exact List.Sublist.cons _ (ih _ _ _ _ hrest)
    · cases hout : env.postOutcome ac with
      | ok id =>
        rw [threadLoop_cons_ok env total row rest i sheet ac prev id hc hgt hout]
        by_cases hsl : i < total - 1 <;>
          · simp only [mainCallRows, List.filterMap_cons, hsl, if_true, if_false,
              List.singleton_append, List.nil_append, reduceIte]
            exact List.Sublist.cons₂ _ (ih _ _ _ _ hrest)
      | err m =>
        rw [threadLoop_cons_err env total row rest i sheet ac prev m hc hgt hout]
        simp only [mainCallRows, List.filterMap_cons]
        exact List.Sublist.cons₂ _ (List.nil_sublist _)

/-- C2: thread publishing makes its main publish calls for a subsequence of
the resolved group rows in store order (so R1 is called before R2), in
strictly increasing row order, and each call's `replyTo` is the id
returned by the most recent successful publish in the group — `none`
(a top-level post) for the first call. -/
theorem c2_thread_order_and_reply_chain :
    ∀ (env : Env) (sheet : Sheet) (ac : Nat) (target : Target),
      List.Sublist (mainCallRows (postThreadGroup_ env sheet ac target).trace)
        ((findThreadGroupRows_ sheet target.threadGroupId).map ThreadRow.rowNumber) ∧
      List.Pairwise (· < ·)
        (mainCallRows (postThreadGroup_ env sheet ac target).trace) ∧
      replyChain none (postThreadGroup_ env sheet ac target).trace = true := by
  intro env sheet ac target
  have hcont : ∀ row ∈ findThreadGroupRows_ sheet target.threadGroupId,
      row.content ≠ "" :=
    fun row hr => findThreadGroupRowsFrom_content _ _ _ _ hr
  have hsorted := findThreadGroupRowsFrom_sorted target.threadGroupId sheet dataStartRow
  by_cases hlen : (findThreadGroupRows_ sheet target.threadGroupId).length = 0
  · simp [postThreadGroup_, hlen, mainCallRows, replyChain]
  · have hchain := threadLoop_chain env
      (findThreadGroupRows_ sheet target.threadGroupId).length
      (findThreadGroupRows_ sheet target.threadGroupId) 0 sheet ac none hcont
    have hcalls := threadLoop_calls env
      (findThreadGroupRows_ sheet target.threadGroupId).length
      (findThreadGroupRows_ sheet target.threadGroupId) 0 sheet ac none hcont
    rcases hloop : threadLoop env
        (findThreadGroupRows_ sheet target.threadGroupId).length
        (findThreadGroupRows_ sheet target.threadGroupId) 0 sheet ac none with
      ⟨res, sheet', ac', evs⟩
    rw [hloop] at hchain hcalls
    have hpair : List.Pairwise (· < ·) (mainCallRows evs) :=
      List.Pairwise.sublist hcalls
        (List.pairwise_map.mpr (by exact hsorted))
    simp only [postThreadGroup_, if_neg hlen, hloop]
    cases res with
    | error m => exact ⟨hcalls, hpair, hchain⟩
    | ok prev =>
      cases hnote : target.noteUrl with
      | none => exact ⟨hcalls, hpair, hchain⟩
      | some note =>
        cases prev with
        | none => exact ⟨hcalls, hpair, hchain⟩
        | some pid =>
          cases hout2 : env.postOutcome ac' with
          | ok id2 =>
            refine ⟨?_, ?_, ?_⟩
            · simpa [postSingleTweet_, hout2, mainCallRows_append, mainCallRows]
                using hcalls
            · simpa [postSingleTweet_, hout2, mainCallRows_append, mainCallRows]
                using hpair
            · simp [postSingleTweet_, hout2, replyChain_append, replyChain, chainUpd,
                hchain]
          | err m2 =>
            refine ⟨?_, ?_, ?_⟩
            · simpa [postSingleTweet_, hout2, mainCallRows_append, mainCallRows]
                using hcalls
            · simpa [postSingleTweet_, hout2, mainCallRows_append, mainCallRows]
                using hpair
            · simp [postSingleTweet_, hout2, replyChain_append, replyChain, chainUpd,
                hchain]

/-! ### Fail-fast facts about the thread loop -/

/-- A trace with no failing main publish call contributes nothing to the
fail-fast check. -/
theorem failFast_append_noerr :
    ∀ (l1 l2 : List Event),
      (∀ (r : Nat) (c : String) (rt : Option String) (mids : List String) (m : String),
        Event.apiPost (some r) c rt mids (.err m) ∉ l1) →
      failFast (l1 ++ l2) = failFast l2 := by
  intro l1
  induction l1 with
  | nil => intro l2 _; rfl
  | cons e rest ih =>
    intro l2 hno
    have hrest : ∀ (r : Nat) (c : String) (rt : Option String) (mids : List String)
        (m : String), Event.apiPost (some r) c rt mids (.err m) ∉ rest :=
      fun r c rt mids m h => hno r c rt mids m (List.mem_cons_of_mem _ h)
    cases e with
    | statusWrite r0 s0 m0 => simpa [failFast] using ih l2 hrest
    | urlWrite r0 u0 => simpa [failFast] using ih l2 hrest
    | sleep ms => simpa [failFast] using ih l2 hrest
    | lockAcquired => simpa [failFast] using ih l2 hrest
    | lockReleased => simpa [failFast] using ih l2 hrest
    | apiPost tag c0 rt0 mids0 out0 =>
      cases tag with
      | none => simpa [failFast] using ih l2 hrest
      | some r0 =>
        cases out0 with
        | ok id0 => simpa [failFast] using ih l2 hrest
        | err m0 =>
          exact absurd (List.mem_cons_self _ _) (hno r0 c0 rt0 mids0 m0)

/-- The thread loop's trace always satisfies the fail-fast shape: a failing
main publish call is followed by exactly the `failed` mark of its row. -/
theorem threadLoop_failFast (env : Env) (total : Nat) :
    ∀ (rows : List ThreadRow) (i : Nat) (sheet : Sheet) (ac : Nat)
      (prev : Option String),
      (∀ row ∈ rows, row.content ≠ "") →
      failFast (threadLoop env total rows i sheet ac prev).trace = true := by
  intro rows
  induction rows with
  | nil => intro i sheet ac prev _; simp [threadLoop, failFast]
  | cons row rest ih =>
    intro i sheet ac prev hcont
    have hc : row.content ≠ "" := hcont row (List.mem_cons_self _ _)
    have hrest : ∀ r ∈ rest, r.content ≠ "" :=
      fun r hr => hcont r (List.mem_cons_of_mem _ hr)
    by_cases hgt : countTwitterCharacters_ row.content > (getXPlanConfig env).2
    · rw [threadLoop_cons_skip env total row rest i sheet ac prev hc hgt]
      simpa [failFast] using ih _ _ _ _ hrest
    · cases hout : env.postOutcome ac with
      | ok id =>
        rw [threadLoop_cons_ok env total row rest i sheet ac prev id hc hgt hout]
        by_cases hsl : i < total - 1 <;>
          simpa [failFast, hsl] using ih _ _ _ _ hrest
      | err m =>
        rw [threadLoop_cons_err env total row rest i sheet ac prev m hc hgt hout]
        simp [failFast]

/-- The loop never writes to a row that is not in its list. -/
theorem threadLoop_writes_frame (env : Env) (total : Nat) :
    ∀ (rows : List ThreadRow) (i : Nat) (sheet : Sheet) (ac : Nat)
      (prev : Option String) (r : Nat),
      (∀ row ∈ rows, row.content ≠ "") →
      (∀ row ∈ rows, row.rowNumber ≠ r) →
      writesFor r (threadLoop env total rows i sheet ac prev).trace = [] := by
  intro rows
  induction rows with
  | nil => intro i sheet ac prev r _ _; simp [threadLoop, writesFor]
  | cons row rest ih =>
    intro i sheet ac prev r hcont hne
    have hc : row.content ≠ "" := hcont row (List.mem_cons_self _ _)
    have hrest : ∀ x ∈ rest, x.content ≠ "" :=
      fun x hx => hcont x (List.mem_cons_of_mem _ hx)
    have hne0 : row.rowNumber ≠ r := hne row (List.mem_cons_self _ _)
    have hnerest : ∀ x ∈ rest, x.rowNumber ≠ r :=
      fun x hx => hne x (List.mem_cons_of_mem _ hx)
    by_cases hgt : countTwitterCharacters_ row.content > (getXPlanConfig env).2
    · rw [threadLoop_cons_skip env total row rest i sheet ac prev hc hgt]
      simpa [writesFor, isWriteTo, hne0] using ih _ _ _ _ _ hrest hnerest
    · cases hout : env.postOutcome ac with
      | ok id =>
        rw [threadLoop_cons_ok env total row rest i sheet ac prev id hc hgt hout]
        by_cases hsl : i < total - 1 <;>
          simpa [writesFor, isWriteTo, hne0, hsl] using ih _ _ _ _ _ hrest hnerest
      | err m =>
        rw [threadLoop_cons_err env total row rest i sheet ac prev m hc hgt hout]
        simp [writesFor, isWriteTo, hne0]

/-- If a main publish call in the thread loop's trace failed, then the loop
result is that error, every sheet row after the failing one is untouched,
and no trace event writes to any row after the failing one. -/
theorem threadLoop_err_fact (env : Env) (total : Nat) :
    ∀ (rows : List ThreadRow) (i : Nat) (sheet : Sheet) (ac : Nat)
      (prev : Option String),
      (∀ row ∈ rows, row.content ≠ "") →
      (∀ row ∈ rows, dataStartRow ≤ row.rowNumber) →
      List.Pairwise (fun a b => a.rowNumber < b.rowNumber) rows →
      ∀ (r : Nat) (c : String) (rt : Option String) (mids : List String) (m : String),
        Event.apiPost (some r) c rt mids (.err m) ∈
          (threadLoop env total rows i sheet ac prev).trace →
        (threadLoop env total rows i sheet ac prev).res = .error m ∧
        (∀ k, r < dataStartRow + k →
          (threadLoop env total rows i sheet ac prev).sheet.get? k = sheet.get? k) ∧
        (∀ r', r < r' →
          writesFor r' (threadLoop env total rows i sheet ac prev).trace = []) := by
  intro rows
  induction rows with
  | nil =>
    intro i sheet ac prev _ _ _ r c rt mids m hmem
    simp [threadLoop] at hmem
  | cons row rest ih =>
    intro i sheet ac prev hcont hlb hpair r c rt mids m hmem
    have hc : row.content ≠ "" := hcont row (List.mem_cons_self _ _)
    have hrest : ∀ x ∈ rest, x.content ≠ "" :=
      fun x hx => hcont x (List.mem_cons_of_mem _ hx)
    have hlbrest : ∀ x ∈ rest, dataStartRow ≤ x.rowNumber :=
      fun x hx => hlb x (List.mem_cons_of_mem _ hx)
    have hlb0 : dataStartRow ≤ row.rowNumber := hlb row (List.mem_cons_self _ _)
    have hpair' := List.pairwise_cons.mp hpair
    by_cases hgt : countTwitterCharacters_ row.content > (getXPlanConfig env).2
    · rw [threadLoop_cons_skip env total row rest i sheet ac prev hc hgt] at hmem ⊢
      simp only [List.mem_cons] at hmem
      rcases hmem with heq | heq | hmem
      · cases heq
      · cases heq
      · -- the failing call happens in the rest of the loop
        obtain ⟨hres, hsheet, hwr⟩ :=
          ih (i + 1) (sheetMarkSkip env sheet row.rowNumber row.content) ac prev
            hrest hlbrest hpair'.2 r c rt mids m hmem
        have hrm : r ∈ List.map ThreadRow.rowNumber rest :=
          (threadLoop_calls env total rest (i + 1)
            (sheetMarkSkip env sheet row.rowNumber row.content) ac prev hrest).subset
            (mem_mainCallRows hmem)
        obtain ⟨row', hrow', hreq⟩ := List.mem_map.mp hrm
        have hr0 : row.rowNumber < r := hreq ▸ hpair'.1 row' hrow'
        refine ⟨hres, ?_, ?_⟩
        · intro k hk
          rw [hsheet k hk]
          have hkne : k ≠ row.rowNumber - dataStartRow := by
            simp only [dataStartRow] at *
            omega
          unfold sheetMarkSkip
          rw [setRowStatus_frame _ _ _ _ _ hkne, setRowStatus_frame _ _ _ _ _ hkne]
        · intro r' hr'
          have hne' : row.rowNumber ≠ r' := by omega
          simpa [writesFor, isWriteTo, hne'] using hwr r' hr'
    · cases hout : env.postOutcome ac with
      | ok id =>
        rw [threadLoop_cons_ok env total row rest i sheet ac prev id hc hgt hout]
          at hmem ⊢
        simp only [List.mem_cons, List.mem_append] at hmem
        rcases hmem with heq | heq | heq | heq | hmem
        · cases heq
        · cases heq
        · cases heq
        · cases heq
        · have hmem' : Event.apiPost (some r) c rt mids (.err m) ∈
              (threadLoop env total rest (i + 1)
                (sheetMarkPosted sheet row.rowNumber (tweetUrlOf id)) (ac + 1)
                (some id)).trace := by
            rcases hmem with hsleep | hmem'
            · exfalso
              revert hsleep
              split <;> simp
            · exact hmem'
          obtain ⟨hres, hsheet, hwr⟩ :=
            ih (i + 1) (sheetMarkPosted sheet row.rowNumber (tweetUrlOf id)) (ac + 1)
              (some id) hrest hlbrest hpair'.2 r c rt mids m hmem'
          have hrm : r ∈ List.map ThreadRow.rowNumber rest :=
            (threadLoop_calls env total rest (i + 1)
              (sheetMarkPosted sheet row.rowNumber (tweetUrlOf id)) (ac + 1)
              (some id) hrest).subset (mem_mainCallRows hmem')
          obtain ⟨row', hrow', hreq⟩ := List.mem_map.mp hrm
          have hr0 : row.rowNumber < r := hreq ▸ hpair'.1 row' hrow'
          refine ⟨hres, ?_, ?_⟩
          · intro k hk
            rw [hsheet k hk]
            have hkne : k ≠ row.rowNumber - dataStartRow := by
              simp only [dataStartRow] at *
              omega
            unfold sheetMarkPosted updateRow
            rw [setRowStatus_frame _ _ _ _ _ hkne,
              updateAt_get?_ne _ _ _ _ hkne, setRowStatus_frame _ _ _ _ _ hkne]
          · intro r' hr'
            have hne' : row.rowNumber ≠ r' := by omega
            have hrec := hwr r' hr'
            by_cases hsl : i < total - 1 <;>
              simpa [writesFor, isWriteTo, hne', hsl] using hrec
      | err m0 =>
        rw [threadLoop_cons_err env total row rest i sheet ac prev m0 hc hgt hout]
          at hmem ⊢
        simp only [List.mem_cons, List.not_mem_nil, or_false] at hmem
        rcases hmem with heq | heq | heq
        · cases heq
        · -- the event is the failing head call itself
          have h1 : r = row.rowNumber ∧ c = row.content ∧ rt = prev ∧
              mids = collectMediaIds env row.rowNumber ∧ m = m0 := by
            injection heq with a1 a2 a3 a4 a5
            exact ⟨Option.some.inj a1, a2, a3, a4, by injection a5⟩
          obtain ⟨hr0, _, _, _, hm0⟩ := h1
          subst hr0 hm0
          refine ⟨rfl, ?_, ?_⟩
          · intro k hk
            have hkne : k ≠ row.rowNumber - dataStartRow := by
              simp only [dataStartRow] at *
              omega
            unfold sheetMarkErr
            rw [setRowStatus_frame _ _ _ _ _ hkne, setRowStatus_frame _ _ _ _ _ hkne]
          · intro r' hr'
            have hne' : row.rowNumber ≠ r' := by omega
            simp [writesFor, isWriteTo, hne']
        · cases heq

/-- C3: thread publishing is fail-fast.  The trace satisfies the fail-fast
shape (after a failing main publish call, the only further event is
marking that row `failed` with `String(error)`), and whenever some row's
publish call failed: the error propagates as the result of the group
publish, every sheet row after the failing one is left exactly as it was,
and no event writes to any row after the failing one (in particular no
later row is marked `posting` or published). -/
theorem c3_thread_fail_fast :
    ∀ (env : Env) (sheet : Sheet) (ac : Nat) (target : Target),
      failFast (postThreadGroup_ env sheet ac target).trace = true ∧
      ∀ (r : Nat) (c : String) (rt : Option String) (mids : List String) (m : String),
        Event.apiPost (some r) c rt mids (.err m) ∈
          (postThreadGroup_ env sheet ac target).trace →
        (postThreadGroup_ env sheet ac target).res = .error m ∧
        (∀ k, r < dataStartRow + k →
          (postThreadGroup_ env sheet ac target).sheet.get? k = sheet.get? k) ∧
        (∀ r', r < r' →
          writesFor r' (postThreadGroup_ env sheet ac target).trace = []) := by
  intro env sheet ac target
  have hcont : ∀ row ∈ findThreadGroupRows_ sheet target.threadGroupId,
      row.content ≠ "" :=
    fun row hr => findThreadGroupRowsFrom_content _ _ _ _ hr
  have hlb : ∀ row ∈ findThreadGroupRows_ sheet target.threadGroupId,
      dataStartRow ≤ row.rowNumber :=
    fun row hr => findThreadGroupRowsFrom_lb _ _ _ _ hr
  have hsorted := findThreadGroupRowsFrom_sorted target.threadGroupId sheet dataStartRow
  by_cases hlen : (findThreadGroupRows_ sheet target.threadGroupId).length = 0
  · refine ⟨by simp [postThreadGroup_, hlen, failFast], ?_⟩
    intro r c rt mids m hmem
    simp [postThreadGroup_, hlen] at hmem
  · have hnil : findThreadGroupRows_ sheet target.threadGroupId ≠ [] := by
      intro h
      exact hlen (by rw [h]; rfl)
    have hff := threadLoop_failFast env
      (findThreadGroupRows_ sheet target.threadGroupId).length
      (findThreadGroupRows_ sheet target.threadGroupId) 0 sheet ac none hcont
    have hfact := threadLoop_err_fact env
      (findThreadGroupRows_ sheet target.threadGroupId).length
      (findThreadGroupRows_ sheet target.threadGroupId) 0 sheet ac none
      hcont hlb hsorted
    rcases hloop : threadLoop env
        (findThreadGroupRows_ sheet target.threadGroupId).length
        (findThreadGroupRows_ sheet target.threadGroupId) 0 sheet ac none with
      ⟨res, sheet', ac', evs⟩
    rw [hloop] at hff hfact
    cases res with
    | error mL =>
      have hgoal : postThreadGroup_ env sheet ac target =
          ⟨.error mL, sheet', ac', evs⟩ := by
        simp [postThreadGroup_, if_neg hlen, hloop, hnil]
      rw [hgoal]
      refine ⟨hff, ?_⟩
      intro r c rt mids m hmem
      obtain ⟨hres, hsheet, hwr⟩ := hfact r c rt mids m hmem
      have hm : mL = m := by simpa using hres
      subst hm
      exact ⟨rfl, hsheet, hwr⟩
    | ok prev =>
      have hnoerr : ∀ (r : Nat) (c : String) (rt : Option String)
          (mids : List String) (m : String),
          Event.apiPost (some r) c rt mids (.err m) ∉ evs := by
        intro r c rt mids m hmem
        have hres := (hfact r c rt mids m hmem).1
        simp at hres
      cases hnote : target.noteUrl with
      | none =>
        have hgoal : postThreadGroup_ env sheet ac target =
            ⟨.ok PUnit.unit, sheet', ac', evs⟩ := by
          simp [postThreadGroup_, if_neg hlen, hloop, hnote, hnil]
        rw [hgoal]
        refine ⟨hff, ?_⟩
        intro r c rt mids m hmem
        exact absurd hmem (hnoerr r c rt mids m)
      | some note =>
        cases prev with
        | none =>
          have hgoal : postThreadGroup_ env sheet ac target =
              ⟨.ok PUnit.unit, sheet', ac', evs⟩ := by
            simp [postThreadGroup_, if_neg hlen, hloop, hnote, hnil]
          rw [hgoal]
          refine ⟨hff, ?_⟩
          intro r c rt mids m hmem
          exact absurd hmem (hnoerr r c rt mids m)
        | some pid =>
          cases hout2 : env.postOutcome ac' with
          | ok id2 =>
            have hgoal : postThreadGroup_ env sheet ac target =
                ⟨.ok PUnit.unit, sheet', ac' + 1,
                 evs ++ [Event.sleep 1000,
                   Event.apiPost none note (some pid) [] (.ok id2)]⟩ := by
              simp [postThreadGroup_, if_neg hlen, hloop, hnote, hnil,
                postSingleTweet_, hout2]
            rw [hgoal]
            constructor
            · rw [failFast_append_noerr evs _ hnoerr]
              simp [failFast]
            · intro r c rt mids m hmem
              simp only [List.mem_append, List.mem_cons, List.not_mem_nil,
                or_false] at hmem
              rcases hmem with hmem | heq | heq
              · exact absurd hmem (hnoerr r c rt mids m)
              · cases heq
              · cases heq
          | err m2 =>
            have hgoal : postThreadGroup_ env sheet ac target =
                ⟨.ok PUnit.unit, sheet', ac' + 1,
                 evs ++ [Event.sleep 1000,
                   Event.apiPost none note (some pid) [] (.err m2)]⟩ := by
              simp [postThreadGroup_, if_neg hlen, hloop, hnote, hnil,
                postSingleTweet_, hout2]
            rw [hgoal]
            constructor
            · rw [failFast_append_noerr evs _ hnoerr]
              simp [failFast]
            · intro r c rt mids m hmem
              simp only [List.mem_append, List.mem_cons, List.not_mem_nil,
                or_false] at hmem
              rcases hmem with hmem | heq | heq
              · exact absurd hmem (hnoerr r c rt mids m)
              · cases heq
              · cases heq

/-- C3 (witness): a concrete two-row group whose first publish call fails:
the error propagates, the later row's cells are untouched, and no event
writes to any later row. -/
theorem c3_thread_fail_fast_witness :
    (postThreadGroup_ failPostEnv threadSheet 0 threadTarget).res =
      Except.error "boom" ∧
    (postThreadGroup_ failPostEnv threadSheet 0 threadTarget).sheet.get? 1 =
      threadSheet.get? 1 ∧
    writesFor 3 (postThreadGroup_ failPostEnv threadSheet 0 threadTarget).trace = [] := by
  have h := (c3_thread_fail_fast failPostEnv threadSheet 0 threadTarget).2 2 "a" none []
    "boom" (by decide)
  exact ⟨h.1, h.2.1 1 (by decide), h.2.2 3 (by decide)⟩

/-! ### Per-row status write shapes (C6) -/

/-- `postSingleRow_` on non-empty content performs a legal per-row write
sequence on every row. -/
theorem postSingleRow_goodWrites (env : Env) (sheet : Sheet) (ac : Nat)
    (target : Target) (hc : target.content ≠ "") (r : Nat) :
    goodRowWrites r (postSingleRow_ env sheet ac target).trace = true := by
  rcases postSingleRow_cases env sheet ac target hc with
    ⟨m, htr⟩ | ⟨m, mids, htr⟩ | ⟨id, mids, htr⟩ | ⟨id, mids, note, out, htr⟩ <;>
    rw [htr] <;> by_cases hr : target.rowNumber = r <;>
    simp [goodRowWrites, writesFor, isWriteTo, hr, shapeOk]

/-- The thread loop performs a legal per-row write sequence on every row,
when its rows have non-empty contents and strictly increasing numbers. -/
theorem threadLoop_goodWrites (env : Env) (total : Nat) :
    ∀ (rows : List ThreadRow) (i : Nat) (sheet : Sheet) (ac : Nat)
      (prev : Option String) (r : Nat),
      (∀ row ∈ rows, row.content ≠ "") →
      List.Pairwise (fun a b => a.rowNumber < b.rowNumber) rows →
      goodRowWrites r (threadLoop env total rows i sheet ac prev).trace = true := by
  intro rows
  induction rows with
  | nil => intro i sheet ac prev r _ _; simp [threadLoop, goodRowWrites, writesFor, shapeOk]
  | cons row rest ih =>
    intro i sheet ac prev r hcont hpair
    have hc : row.content ≠ "" := hcont row (List.mem_cons_self _ _)
    have hrest : ∀ x ∈ rest, x.content ≠ "" :=
      fun x hx => hcont x (List.mem_cons_of_mem _ hx)
    have hpair' := List.pairwise_cons.mp hpair
    by_cases hr : row.rowNumber = r
    · subst hr
      have hnerest : ∀ x ∈ rest, x.rowNumber ≠ row.rowNumber := by
        intro x hx
        have := hpair'.1 x hx
        omega
      by_cases hgt : countTwitterCharacters_ row.content > (getXPlanConfig env).2
      · rw [threadLoop_cons_skip env total row rest i sheet ac prev hc hgt]
        have hframe := threadLoop_writes_frame env total rest (i + 1)
          (sheetMarkSkip env sheet row.rowNumber row.content) ac prev row.rowNumber
          hrest hnerest
        simp only [writesFor] at hframe
        simp [goodRowWrites, writesFor, isWriteTo, hframe, shapeOk]
      · cases hout : env.postOutcome ac with
        | ok id =>
          rw [threadLoop_cons_ok env total row rest i sheet ac prev id hc hgt hout]
          have hframe := threadLoop_writes_frame env total rest (i + 1)
            (sheetMarkPosted sheet row.rowNumber (tweetUrlOf id)) (ac + 1) (some id)
            row.rowNumber hrest hnerest
          simp only [writesFor] at hframe
          by_cases hsl : i < total - 1 <;>
            simp [goodRowWrites, writesFor, isWriteTo, hsl, hframe, shapeOk]
        | err m =>
          rw [threadLoop_cons_err env total row rest i sheet ac prev m hc hgt hout]
          simp [goodRowWrites, writesFor, isWriteTo, shapeOk]
    · by_cases hgt : countTwitterCharacters_ row.content > (getXPlanConfig env).2
      · rw [threadLoop_cons_skip env total row rest i sheet ac prev hc hgt]
        have hih := ih (i + 1) (sheetMarkSkip env sheet row.rowNumber row.content)
          ac prev r hrest hpair'.2
        simp only [goodRowWrites, writesFor] at hih
        simp [goodRowWrites, writesFor, isWriteTo, hr, hih]
      · cases hout : env.postOutcome ac with
        | ok id =>
          rw [threadLoop_cons_ok env total row rest i sheet ac prev id hc hgt hout]
          have hih := ih (i + 1) (sheetMarkPosted sheet row.rowNumber (tweetUrlOf id))
            (ac + 1) (some id) r hrest hpair'.2
          simp only [goodRowWrites, writesFor] at hih
          by_cases hsl : i < total - 1 <;>
            simp [goodRowWrites, writesFor, isWriteTo, hr, hsl, hih]
        | err m =>
          rw [threadLoop_cons_err env total row rest i sheet ac prev m hc hgt hout]
          simp [goodRowWrites, writesFor, isWriteTo, hr, shapeOk]

/-- `postThreadGroup_` performs a legal per-row write sequence on every
row. -/
theorem postThreadGroup_goodWrites (env : Env) (sheet : Sheet) (ac : Nat)
    (target : Target) (r : Nat) :
    goodRowWrites r (postThreadGroup_ env sheet ac target).trace = true := by
  have hcont : ∀ row ∈ findThreadGroupRows_ sheet target.threadGroupId,
      row.content ≠ "" :=
    fun row hr => findThreadGroupRowsFrom_content _ _ _ _ hr
  have hsorted := findThreadGroupRowsFrom_sorted target.threadGroupId sheet dataStartRow
  by_cases hlen : (findThreadGroupRows_ sheet target.threadGroupId).length = 0
  · simp [postThreadGroup_, hlen, goodRowWrites, writesFor, shapeOk]
  · have hnil : findThreadGroupRows_ sheet target.threadGroupId ≠ [] := by
      intro h
      exact hlen (by rw [h]; rfl)
    have hgw := threadLoop_goodWrites env
      (findThreadGroupRows_ sheet target.threadGroupId).length
      (findThreadGroupRows_ sheet target.threadGroupId) 0 sheet ac none r
      hcont hsorted
    rcases hloop : threadLoop env
        (findThreadGroupRows_ sheet target.threadGroupId).length
        (findThreadGroupRows_ sheet target.threadGroupId) 0 sheet ac none with
      ⟨res, sheet', ac', evs⟩
    rw [hloop] at hgw
    cases res with
    | error mL =>
      have hgoal : postThreadGroup_ env sheet ac target =
          ⟨.error mL, sheet', ac', evs⟩ := by
        simp [postThreadGroup_, if_neg hlen, hloop, hnil]
      rw [hgoal]
      exact hgw
    | ok prev =>
      cases hnote : target.noteUrl with
      | none =>
        have hgoal : postThreadGroup_ env sheet ac target =
            ⟨.ok PUnit.unit, sheet', ac', evs⟩ := by
          simp [postThreadGroup_, if_neg hlen, hloop, hnote, hnil]
        rw [hgoal]
        exact hgw
      | some note =>
        cases prev with
        | none =>
          have hgoal : postThreadGroup_ env sheet ac target =
              ⟨.ok PUnit.unit, sheet', ac', evs⟩ := by
            simp [postThreadGroup_, if_neg hlen, hloop, hnote, hnil]
          rw [hgoal]
          exact hgw
        | some pid =>
          cases hout2 : env.postOutcome ac' with
          | ok id2 =>
            have hgoal : postThreadGroup_ env sheet ac target =
                ⟨.ok PUnit.unit, sheet', ac' + 1,
                 evs ++ [Event.sleep 1000,
                   Event.apiPost none note (some pid) [] (.ok id2)]⟩ := by
              simp [postThreadGroup_, if_neg hlen, hloop, hnote, hnil,
                postSingleTweet_, hout2]
            rw [hgoal]
            simp only [goodRowWrites, writesFor] at hgw ⊢
            simpa [List.filter_append, isWriteTo] using hgw
          | err m2 =>
            have hgoal : postThreadGroup_ env sheet ac target =
                ⟨.ok PUnit.unit, sheet', ac' + 1,
                 evs ++ [Event.sleep 1000,
                   Event.apiPost none note (some pid) [] (.err m2)]⟩ := by
              simp [postThreadGroup_, if_neg hlen, hloop, hnote, hnil,
                postSingleTweet_, hout2]
            rw [hgoal]
            simp only [goodRowWrites, writesFor] at hgw ⊢
            simpa [List.filter_append, isWriteTo] using hgw

/-- The run body performs a legal per-row write sequence on every row. -/
theorem postNextScheduledToXBody_goodWrites (env : Env) (sheet : Sheet) (r : Nat) :
    goodRowWrites r (postNextScheduledToXBody env sheet).trace = true := by
  unfold postNextScheduledToXBody
  cases hfind : findNextPublishableRow_ env sheet with
  | none => simp [goodRowWrites, writesFor, shapeOk]
  | some target =>
    have hc : target.content ≠ "" :=
      findNextFrom_content env sheet dataStartRow target hfind
    by_cases hcf : credsFalsy env
    · simp [hcf, goodRowWrites, writesFor, shapeOk]
    · cases hg : target.threadGroupId with
      | none =>
        simpa [hcf, hg] using postSingleRow_goodWrites env sheet 0 target hc r
      | some g =>
        simpa [hcf, hg] using postThreadGroup_goodWrites env sheet 0 target r

/-- C6 (counterexample): a row whose status is already `posted` IS
written to again, and its status moves backward.  Row 2 of group `g`
starts `posted`; the selector skips it and picks the pending due row 3;
but the thread publisher re-resolves row 2 (its status filter reads past
the scanned 9-column range and never fires), re-marks it `posting` —
moving the status backward from `posted` — republishes it, and marks it
`posted` again. -/
theorem c6_posted_rewritten_counterexample :
    (postedThreadSheet.get? 0).map RowCells.status = some "posted" ∧
    (findNextPublishableRow_ sampleEnv postedThreadSheet).map Target.rowNumber =
      some 3 ∧
    Event.statusWrite 2 "posting" "" ∈
      (postNextScheduledToX sampleEnv postedThreadSheet).trace ∧
    Event.statusWrite 2 "posted" "" ∈
      (postNextScheduledToX sampleEnv postedThreadSheet).trace := by
  refine ⟨by decide, by decide, by decide, by decide⟩

/-- C6 (amended): within one run of `postNextScheduledToX`, every row's
sequence of writes is one of: untouched; `posting` then `failed`; or
`posting`, the posted URL, then `posted`.  Hence a row is marked
`failed`/`posted` only after being marked `posting` in that run, and
within the run no row is written again after its `posted` write.  The
original claim's further guarantee — that a row whose status is `posted`
is never written to again — does NOT hold: the thread resolver's dead
status filter lets the thread publisher re-mark an already-`posted` group
row `posting` (a backward move) and republish it. -/
theorem c6_status_monotonic :
    ∀ (env : Env) (sheet : Sheet) (r : Nat),
      goodRowWrites r (postNextScheduledToX env sheet).trace = true := by
  intro env sheet r
  have hbody := postNextScheduledToXBody_goodWrites env sheet r
  simp only [goodRowWrites, writesFor] at hbody ⊢
  by_cases hl : env.lockAcquired
  · simpa [postNextScheduledToX, hl, List.filter_append, isWriteTo] using hbody
  · simp [postNextScheduledToX, hl, List.filter_append, isWriteTo, shapeOk]

/-! ### C5 — thread-group resolution -/

/-- The resolver scan equals the filter-based description keeping exactly
the rows with a matching group id and non-empty content (no status
filter: the source's skip reads past the scanned range and never fires). -/
theorem findThreadGroupRowsFrom_eq (gid : Option String) :
    ∀ (l : List RowCells) (n : Nat),
      findThreadGroupRowsFrom gid n l =
        (List.enumFrom n l).filterMap fun p =>
          if some (jsTrim p.2.threadGroupId) = gid ∧ jsTrim p.2.content ≠ ""
          then some ⟨p.1, jsTrim p.2.content, jsTrim p.2.threadGroupId⟩
          else none := by
  have hst : ¬(jsToLower (jsTrim threadScanStatusCell) = "posted" ∨
      jsToLower (jsTrim threadScanStatusCell) = "posting") := by decide
  intro l
  induction l with
  | nil => intro n; rfl
  | cons cells rest ih =>
    intro n
    by_cases hg : some (jsTrim cells.threadGroupId) = gid
    · by_cases hcnt : jsTrim cells.content = ""
      · simp [findThreadGroupRowsFrom, List.enumFrom, List.filterMap_cons, hg, hst,
          hcnt, ih]
      · simp [findThreadGroupRowsFrom, List.enumFrom, List.filterMap_cons, hg, hst,
          hcnt, ih]
    · simp [findThreadGroupRowsFrom, List.enumFrom, List.filterMap_cons, hg, ih]

/-- The thread loop on rows with non-empty contents never marks any row
failed with the empty-content detail. -/
theorem threadLoop_no_emptyMark (env : Env) (total : Nat) :
    ∀ (rows : List ThreadRow) (i : Nat) (sheet : Sheet) (ac : Nat)
      (prev : Option String),
      (∀ row ∈ rows, row.content ≠ "") →
      ∀ e ∈ (threadLoop env total rows i sheet ac prev).trace,
        ∀ r, e ≠ Event.statusWrite r "failed" "本文が空欄" := by
  intro rows
  induction rows with
  | nil => intro i sheet ac prev _ e he; simp [threadLoop] at he
  | cons row rest ih =>
    intro i sheet ac prev hcont e he r
    have hc : row.content ≠ "" := hcont row (List.mem_cons_self _ _)
    have hrest : ∀ x ∈ rest, x.content ≠ "" :=
      fun x hx => hcont x (List.mem_cons_of_mem _ hx)
    by_cases hgt : countTwitterCharacters_ row.content > (getXPlanConfig env).2
    · rw [threadLoop_cons_skip env total row rest i sheet ac prev hc hgt] at he
      simp only [List.mem_cons] at he
      rcases he with rfl | rfl | he
      · intro hbad; injection hbad with h1 h2 h3; exact absurd h2 (by decide)
      · intro hbad; injection hbad with h1 h2 h3
        exact limitMessage_ne_emptyMsg _ _ h3
      · exact ih _ _ _ _ hrest e he r
    · cases hout : env.postOutcome ac with
      | ok id =>
        rw [threadLoop_cons_ok env total row rest i sheet ac prev id hc hgt hout] at he
        simp only [List.mem_cons, List.mem_append] at he
        rcases he with rfl | rfl | rfl | rfl | he
        · intro hbad; injection hbad with h1 h2 h3; exact absurd h2 (by decide)
        · intro hbad; cases hbad
        · intro hbad; cases hbad
        · intro hbad; injection hbad with h1 h2 h3; exact absurd h2 (by decide)
        · rcases he with hsleep | he
          · revert hsleep
            split <;> intro hsleep <;> simp at hsleep
            intro hbad
            rw [hsleep] at hbad
            cases hbad
          · exact ih _ _ _ _ hrest e he r
      | err m =>
        rw [threadLoop_cons_err env total row rest i sheet ac prev m hc hgt hout] at he
        simp only [List.mem_cons, List.not_mem_nil, or_false] at he
        rcases he with rfl | rfl | rfl
        · intro hbad; injection hbad with h1 h2 h3; exact absurd h2 (by decide)
        · intro hbad; cases hbad
        · intro hbad; injection hbad with h1 h2 h3
          exact jsErrorString_ne_emptyMsg _ h3

/-- C5 (counterexample): the resolution is not "filtered only to exclude
`posted`/`posting`" in either direction.  In a sheet where group `g`
holds a pending empty-content row 2 before a non-empty row 3, the
resolver drops row 2 although its status is neither `posted` nor
`posting`, and a full run leaves row 2's status untouched — never marked
`failed` — while publishing proceeds with row 3 alone.  Conversely, in a
sheet where row 2 of group `g` is already `posted` with non-empty
content, the resolver KEEPS it (its status filter reads one column past
the scanned 9-column range and never fires), unlike the claim's
status-only filter. -/
theorem c5_thread_resolution_counterexample :
    findThreadGroupRows_ emptyContentSheet (some "g") =
      [{ rowNumber := 3, content := "b", threadGroupId := "g" }] ∧
    threadRowsSpecStated emptyContentSheet (some "g") =
      [{ rowNumber := 2, content := "", threadGroupId := "g" },
       { rowNumber := 3, content := "b", threadGroupId := "g" }] ∧
    (postNextScheduledToX sampleEnv emptyContentSheet).sheet.map RowCells.status =
      ["", "posted"] ∧
    findThreadGroupRows_ postedThreadSheet (some "g") =
      [{ rowNumber := 2, content := "a", threadGroupId := "g" },
       { rowNumber := 3, content := "b", threadGroupId := "g" }] ∧
    threadRowsSpecStated postedThreadSheet (some "g") =
      [{ rowNumber := 3, content := "b", threadGroupId := "g" }] := by
  refine ⟨by decide, by decide, by decide, by decide, by decide⟩

/-- C5 (amended): the thread publisher resolves the group as the ordered
subsequence of rows sharing the `threadGroupId` whose trimmed content is
non-empty, with no effective status filter: the source's
`posted`/`posting` skip reads the status one column past its 9-column
scan range, sees blank, and never fires, so already-posted or posting
rows with content are resolved too.  Consequently every resolved row has
non-empty content, the loop's empty-content branch never fires, and no
event of thread publishing marks any row failed with the empty-content
detail — an empty-content row is silently skipped with its status
unchanged. -/
theorem c5_thread_resolution_filter :
    (∀ (sheet : Sheet) (gid : Option String),
      findThreadGroupRows_ sheet gid = threadRowsSpecAmended sheet gid) ∧
    (∀ (sheet : Sheet) (gid : Option String) (row : ThreadRow),
      row ∈ findThreadGroupRows_ sheet gid → row.content ≠ "") ∧
    (∀ (env : Env) (sheet : Sheet) (ac : Nat) (t : Target),
      ∀ e ∈ (postThreadGroup_ env sheet ac t).trace,
        ∀ r, e ≠ Event.statusWrite r "failed" "本文が空欄") := by
  refine ⟨?_, ?_, ?_⟩
  · intro sheet gid
    exact findThreadGroupRowsFrom_eq gid sheet dataStartRow
  · intro sheet gid row hr
    exact findThreadGroupRowsFrom_content gid sheet dataStartRow row hr
  · intro env sheet ac t e he r
    have hcont : ∀ row ∈ findThreadGroupRows_ sheet t.threadGroupId,
        row.content ≠ "" :=
      fun row hr => findThreadGroupRowsFrom_content _ _ _ _ hr
    by_cases hlen : (findThreadGroupRows_ sheet t.threadGroupId).length = 0
    · simp [postThreadGroup_, hlen] at he
    · have hnil : findThreadGroupRows_ sheet t.threadGroupId ≠ [] := by
        intro h
        exact hlen (by rw [h]; rfl)
      have hloopmark := threadLoop_no_emptyMark env
        (findThreadGroupRows_ sheet t.threadGroupId).length
        (findThreadGroupRows_ sheet t.threadGroupId) 0 sheet ac none hcont
      rcases hloop : threadLoop env
          (findThreadGroupRows_ sheet t.threadGroupId).length
          (findThreadGroupRows_ sheet t.threadGroupId) 0 sheet ac none with
        ⟨res, sheet', ac', evs⟩
      rw [hloop] at hloopmark
      cases res with
      | error mL =>
        have hgoal : postThreadGroup_ env sheet ac t =
            ⟨.error mL, sheet', ac', evs⟩ := by
          simp [postThreadGroup_, if_neg hlen, hloop, hnil]
        rw [hgoal] at he
        exact hloopmark e he r
      | ok prev =>
        cases hnote : t.noteUrl with
        | none =>
          have hgoal : postThreadGroup_ env sheet ac t =
              ⟨.ok PUnit.unit, sheet', ac', evs⟩ := by
            simp [postThreadGroup_, if_neg hlen, hloop, hnote, hnil]
          rw [hgoal] at he
          exact hloopmark e he r
        | some note =>
          cases prev with
          | none =>
            have hgoal : postThreadGroup_ env sheet ac t =
                ⟨.ok PUnit.unit, sheet', ac', evs⟩ := by
              simp [postThreadGroup_, if_neg hlen, hloop, hnote, hnil]
            rw [hgoal] at he
            exact hloopmark e he r
          | some pid =>
            cases hout2 : env.postOutcome ac' with
            | ok id2 =>
              have hgoal : postThreadGroup_ env sheet ac t =
                  ⟨.ok PUnit.unit, sheet', ac' + 1,
                   evs ++ [Event.sleep 1000,
                     Event.apiPost none note (some pid) [] (.ok id2)]⟩ := by
                simp [postThreadGroup_, if_neg hlen, hloop, hnote, hnil,
                  postSingleTweet_, hout2]
              rw [hgoal] at he
              simp only [List.mem_append, List.mem_cons, List.not_mem_nil,
                or_false] at he
              rcases he with he | rfl | rfl
              · exact hloopmark e he r
              · intro hbad; cases hbad
              · intro hbad; cases hbad
            | err m2 =>
              have hgoal : postThreadGroup_ env sheet ac t =
                  ⟨.ok PUnit.unit, sheet', ac' + 1,
                   evs ++ [Event.sleep 1000,
                     Event.apiPost none note (some pid) [] (.err m2)]⟩ := by
                simp [postThreadGroup_, if_neg hlen, hloop, hnote, hnil,
                  postSingleTweet_, hout2]
              rw [hgoal] at he
              simp only [List.mem_append, List.mem_cons, List.not_mem_nil,
                or_false] at he
              rcases he with he | rfl | rfl
              · exact hloopmark e he r
              · intro hbad; cases hbad
              · intro hbad; cases hbad

/-- C5 (witness): the amended statement at concrete inputs — the resolved
row of the two-row group has non-empty content, and a concrete trace event
of the concrete group publish differs from the empty-content mark. -/
theorem c5_thread_resolution_filter_witness :
    ({ rowNumber := 3, content := "b", threadGroupId := "g" } : ThreadRow).content ≠ "" ∧
    Event.statusWrite 2 "posting" "" ≠ Event.statusWrite 2 "failed" "本文が空欄" :=
  ⟨c5_thread_resolution_filter.2.1 threadSheet (some "g")
      { rowNumber := 3, content := "b", threadGroupId := "g" } (by decide),
   c5_thread_resolution_filter.2.2 sampleEnv threadSheet 0 threadTarget
      (Event.statusWrite 2 "posting" "") (by decide) 2⟩
